import Mathlib

/-!
Symbolic TCG helpers (`accel/tcg/tcg-runtime-sym.c`).

A shallow embedding of the helper functions that build the symbolic shadow of
each TCG micro-operation, and theorems about them.

* A C `void *` expression handle is an `Option SymExpr`; `NULL` is `none`.
* The expression backend (`RuntimeCommon.h`) is not part of the translation
  unit.  Its builders are modelled as the constructors of a term type, so the
  handle a builder returns records exactly which builder made it and from which
  operands.
* Every helper runs in `Sym`, which threads the list of backend calls made so
  far and distinguishes a normal return from `g_assert_not_reached()` and from
  an operation whose behaviour C leaves undefined.
* C integers are natural numbers; arithmetic that can wrap carries an explicit
  `% 2 ^ 64` or `% 2 ^ 32`.
-/

namespace SymQemu

/-! ## The backend interface -/

/-- The two-operand builders `_sym_build_<name>` used by the helpers. -/
inductive BinOp where
  | add
  | sub
  | mul
  | signed_div
  | unsigned_div
  | signed_rem
  | unsigned_rem
  | and
  | or
  | xor
  | logical_shift_right
  | arithmetic_shift_right
  | shift_left
  deriving DecidableEq, Repr

/-- The ten comparison builders `_sym_build_<name>` selected by `setcond`. -/
inductive CmpOp where
  | equal
  | not_equal
  | signed_less_than
  | signed_greater_equal
  | signed_less_equal
  | signed_greater_than
  | unsigned_less_than
  | unsigned_greater_equal
  | unsigned_less_equal
  | unsigned_greater_than
  deriving DecidableEq, Repr

/-- Modelled from the spec: the expression nodes of the backend, whose header
`RuntimeCommon.h` is missing.  There is one constructor for each builder of the
expression contract, with the arguments the builder receives; `input` stands
for a handle that was created outside this layer (for instance by a symbolic
memory read) and carries its bit width. -/
inductive SymExpr where
  | input (id bits : Nat)
  | integer (value bits : Nat)
  | binary (op : BinOp) (a b : SymExpr)
  | neg (e : SymExpr)
  | sext (e : SymExpr) (bits : Nat)
  | zext (e : SymExpr) (bits : Nat)
  | trunc (e : SymExpr) (bits : Nat)
  | extract (e : SymExpr) (first_bit last_bit : Nat)
  | compare (op : CmpOp) (a b : SymExpr)
  | bool_to_bits (e : SymExpr) (bits : Nat)
  deriving DecidableEq, Repr

/-- Modelled from the spec: bit-width-of(expression).  A constant has the width
it was built with; sign-extend, zero-extend, truncate and boolean-to-bits
produce the target width they are given; extract produces the inclusive range
from `last_bit` up to `first_bit`; the other builders keep the width of their
first operand; a comparison is one bit wide. -/
def bits : SymExpr → Nat
  | .input _ w => w
  | .integer _ w => w
  | .binary _ a _ => bits a
  | .neg e => bits e
  | .sext _ w => w
  | .zext _ w => w
  | .trunc _ w => w
  | .extract _ first_bit last_bit => first_bit - last_bit + 1
  | .compare _ _ _ => 1
  | .bool_to_bits _ w => w

/-- One call into the backend.  `build node` is a call of the builder that
returns `node` (the constructor names the builder, its arguments are the
arguments of the call). -/
inductive Call where
  | bits_helper (expr : SymExpr)
  | build (node : SymExpr)
  | push_path_constraint (constraint : SymExpr) (taken : Nat) (site_id : Nat)
  | read_memory (addr length : Nat) (flag : Bool)
  | write_memory (addr length : Nat) (expr : Option SymExpr) (flag : Bool)
  deriving DecidableEq, Repr

/-- How a helper ends: it returns a value, it reaches
`g_assert_not_reached()`, or it evaluates an operation that C leaves
undefined. -/
inductive Outcome (α : Type) where
  | ret (a : α)
  | not_reached
  | undefined
  deriving DecidableEq, Repr

/-- A computation that may call the backend: from the calls made so far to an
outcome and the calls made once it has ended. -/
def Sym (α : Type) : Type := List Call → Outcome α × List Call

/-- Return without calling the backend. -/
def Sym.pure {α : Type} (a : α) : Sym α := fun t => (Outcome.ret a, t)

/-- Sequencing: the second computation runs only when the first returns. -/
def Sym.bind {α β : Type} (m : Sym α) (f : α → Sym β) : Sym β := fun t =>
  match m t with
  | (Outcome.ret a, t1) => f a t1
  | (Outcome.not_reached, t1) => (Outcome.not_reached, t1)
  | (Outcome.undefined, t1) => (Outcome.undefined, t1)

instance : Monad Sym where
  pure := Sym.pure
  bind := Sym.bind

/-- The glib abort `g_assert_not_reached()`. -/
def g_assert_not_reached {α : Type} : Sym α := fun t => (Outcome.not_reached, t)

/-- An operation without defined behaviour in C (a shift by the width of the
type or more). -/
def undefined_behaviour {α : Type} : Sym α := fun t => (Outcome.undefined, t)

/-- A builder call: the node is returned and the call is recorded. -/
def emit (node : SymExpr) : Sym SymExpr := fun t =>
  (Outcome.ret node, t ++ [Call.build node])

/-- The backend query `_sym_bits_helper`. -/
def _sym_bits_helper (expr : SymExpr) : Sym Nat := fun t =>
  (Outcome.ret (bits expr), t ++ [Call.bits_helper expr])

/-- The backend builder `_sym_build_integer(value, bits)`. -/
def _sym_build_integer (value bits : Nat) : Sym SymExpr :=
  emit (SymExpr.integer value bits)

/-- The backend builder `_sym_build_<symcc_name>(a, b)`. -/
def _sym_build (symcc_name : BinOp) (a b : SymExpr) : Sym SymExpr :=
  emit (SymExpr.binary symcc_name a b)

/-- The backend builder `_sym_build_sub`. -/
def _sym_build_sub (a b : SymExpr) : Sym SymExpr := _sym_build BinOp.sub a b

/-- The backend builder `_sym_build_and`. -/
def _sym_build_and (a b : SymExpr) : Sym SymExpr := _sym_build BinOp.and a b

/-- The backend builder `_sym_build_or`. -/
def _sym_build_or (a b : SymExpr) : Sym SymExpr := _sym_build BinOp.or a b

/-- The backend builder `_sym_build_xor`. -/
def _sym_build_xor (a b : SymExpr) : Sym SymExpr := _sym_build BinOp.xor a b

/-- The backend builder `_sym_build_shift_left`. -/
def _sym_build_shift_left (a b : SymExpr) : Sym SymExpr :=
  _sym_build BinOp.shift_left a b

/-- The backend builder `_sym_build_neg`. -/
def _sym_build_neg (expr : SymExpr) : Sym SymExpr := emit (SymExpr.neg expr)

/-- The backend builder `_sym_build_sext(expr, bits)`. -/
def _sym_build_sext (expr : SymExpr) (bits : Nat) : Sym SymExpr :=
  emit (SymExpr.sext expr bits)

/-- The backend builder `_sym_build_zext(expr, bits)`. -/
def _sym_build_zext (expr : SymExpr) (bits : Nat) : Sym SymExpr :=
  emit (SymExpr.zext expr bits)

/-- The backend builder `_sym_build_trunc(expr, bits)`. -/
def _sym_build_trunc (expr : SymExpr) (bits : Nat) : Sym SymExpr :=
  emit (SymExpr.trunc expr bits)

/-- The backend builder `_sym_extract_helper(expr, first_bit, last_bit)`. -/
def _sym_extract_helper (expr : SymExpr) (first_bit last_bit : Nat) : Sym SymExpr :=
  emit (SymExpr.extract expr first_bit last_bit)

/-- The comparison builder `_sym_build_<name>(a, b)` that `handler` points to. -/
def _sym_build_compare (handler : CmpOp) (a b : SymExpr) : Sym SymExpr :=
  emit (SymExpr.compare handler a b)

/-- The backend builder `_sym_build_bool_to_bits(expr, bits)`. -/
def _sym_build_bool_to_bits (expr : SymExpr) (bits : Nat) : Sym SymExpr :=
  emit (SymExpr.bool_to_bits expr bits)

/-- The backend call `_sym_push_path_constraint(constraint, taken, site_id)`. -/
def _sym_push_path_constraint (constraint : SymExpr) (taken site_id : Nat) : Sym Unit :=
  fun t => (Outcome.ret (), t ++ [Call.push_path_constraint constraint taken site_id])

/-! ## The helpers -/

/-- The macro `BINARY_HELPER_ENSURE_EXPRESSIONS`.  `none` is its early
`return NULL` (both expressions are `NULL`); otherwise the pair is the value of
`arg1_expr` and `arg2_expr` after the macro, the missing one created from its
concrete value with the width of the other. -/
def BINARY_HELPER_ENSURE_EXPRESSIONS (arg1 : Nat) (arg1_expr : Option SymExpr)
    (arg2 : Nat) (arg2_expr : Option SymExpr) : Sym (Option (SymExpr × SymExpr)) :=
  match arg1_expr, arg2_expr with
  | none, none => pure none
  | none, some e2 => do
      let w ← _sym_bits_helper e2
      let e1 ← _sym_build_integer arg1 w
      pure (some (e1, e2))
  | some e1, none => do
      let w ← _sym_bits_helper e1
      let e2 ← _sym_build_integer arg2 w
      pure (some (e1, e2))
  | some e1, some e2 => pure (some (e1, e2))

/-- The 64-bit helper that `DEF_HELPER_BINARY(qemu_name, symcc_name)` defines. -/
def DEF_HELPER_BINARY_i64 (symcc_name : BinOp) (arg1 : Nat) (arg1_expr : Option SymExpr)
    (arg2 : Nat) (arg2_expr : Option SymExpr) : Sym (Option SymExpr) := do
  match ← BINARY_HELPER_ENSURE_EXPRESSIONS arg1 arg1_expr arg2 arg2_expr with
  | none => pure none
  | some (a, b) => do
      let r ← _sym_build symcc_name a b
      pure (some r)

/-- The 32-bit helper that `DEF_HELPER_BINARY(qemu_name, symcc_name)` defines:
the `uint32_t` arguments are widened and passed to the 64-bit helper. -/
def DEF_HELPER_BINARY_i32 (symcc_name : BinOp) (arg1 : Nat) (arg1_expr : Option SymExpr)
    (arg2 : Nat) (arg2_expr : Option SymExpr) : Sym (Option SymExpr) :=
  DEF_HELPER_BINARY_i64 symcc_name arg1 arg1_expr arg2 arg2_expr

/-! ### Primitive binary helpers (`DEF_HELPER_BINARY` lines) -/

/-- `DEF_HELPER_BINARY(add, add)`, 64-bit form. -/
def helper_sym_add_i64 := DEF_HELPER_BINARY_i64 BinOp.add
/-- `DEF_HELPER_BINARY(add, add)`, 32-bit form. -/
def helper_sym_add_i32 := DEF_HELPER_BINARY_i32 BinOp.add
/-- `DEF_HELPER_BINARY(sub, sub)`, 64-bit form. -/
def helper_sym_sub_i64 := DEF_HELPER_BINARY_i64 BinOp.sub
/-- `DEF_HELPER_BINARY(sub, sub)`, 32-bit form. -/
def helper_sym_sub_i32 := DEF_HELPER_BINARY_i32 BinOp.sub
/-- `DEF_HELPER_BINARY(mul, mul)`, 64-bit form. -/
def helper_sym_mul_i64 := DEF_HELPER_BINARY_i64 BinOp.mul
/-- `DEF_HELPER_BINARY(mul, mul)`, 32-bit form. -/
def helper_sym_mul_i32 := DEF_HELPER_BINARY_i32 BinOp.mul
/-- `DEF_HELPER_BINARY(div, signed_div)`, 64-bit form. -/
def helper_sym_div_i64 := DEF_HELPER_BINARY_i64 BinOp.signed_div
/-- `DEF_HELPER_BINARY(div, signed_div)`, 32-bit form. -/
def helper_sym_div_i32 := DEF_HELPER_BINARY_i32 BinOp.signed_div
/-- `DEF_HELPER_BINARY(divu, unsigned_div)`, 64-bit form. -/
def helper_sym_divu_i64 := DEF_HELPER_BINARY_i64 BinOp.unsigned_div
/-- `DEF_HELPER_BINARY(divu, unsigned_div)`, 32-bit form. -/
def helper_sym_divu_i32 := DEF_HELPER_BINARY_i32 BinOp.unsigned_div
/-- `DEF_HELPER_BINARY(rem, signed_rem)`, 64-bit form. -/
def helper_sym_rem_i64 := DEF_HELPER_BINARY_i64 BinOp.signed_rem
/-- `DEF_HELPER_BINARY(rem, signed_rem)`, 32-bit form. -/
def helper_sym_rem_i32 := DEF_HELPER_BINARY_i32 BinOp.signed_rem
/-- `DEF_HELPER_BINARY(remu, unsigned_rem)`, 64-bit form. -/
def helper_sym_remu_i64 := DEF_HELPER_BINARY_i64 BinOp.unsigned_rem
/-- `DEF_HELPER_BINARY(remu, unsigned_rem)`, 32-bit form. -/
def helper_sym_remu_i32 := DEF_HELPER_BINARY_i32 BinOp.unsigned_rem
/-- `DEF_HELPER_BINARY(and, and)`, 64-bit form. -/
def helper_sym_and_i64 := DEF_HELPER_BINARY_i64 BinOp.and
/-- `DEF_HELPER_BINARY(and, and)`, 32-bit form. -/
def helper_sym_and_i32 := DEF_HELPER_BINARY_i32 BinOp.and
/-- `DEF_HELPER_BINARY(or, or)`, 64-bit form. -/
def helper_sym_or_i64 := DEF_HELPER_BINARY_i64 BinOp.or
/-- `DEF_HELPER_BINARY(or, or)`, 32-bit form. -/
def helper_sym_or_i32 := DEF_HELPER_BINARY_i32 BinOp.or
/-- `DEF_HELPER_BINARY(xor, xor)`, 64-bit form. -/
def helper_sym_xor_i64 := DEF_HELPER_BINARY_i64 BinOp.xor
/-- `DEF_HELPER_BINARY(xor, xor)`, 32-bit form. -/
def helper_sym_xor_i32 := DEF_HELPER_BINARY_i32 BinOp.xor
/-- `DEF_HELPER_BINARY(shift_right, logical_shift_right)`, 64-bit form. -/
def helper_sym_shift_right_i64 := DEF_HELPER_BINARY_i64 BinOp.logical_shift_right
/-- `DEF_HELPER_BINARY(shift_right, logical_shift_right)`, 32-bit form. -/
def helper_sym_shift_right_i32 := DEF_HELPER_BINARY_i32 BinOp.logical_shift_right
/-- `DEF_HELPER_BINARY(arithmetic_shift_right, arithmetic_shift_right)`, 64-bit form. -/
def helper_sym_arithmetic_shift_right_i64 := DEF_HELPER_BINARY_i64 BinOp.arithmetic_shift_right
/-- `DEF_HELPER_BINARY(arithmetic_shift_right, arithmetic_shift_right)`, 32-bit form. -/
def helper_sym_arithmetic_shift_right_i32 := DEF_HELPER_BINARY_i32 BinOp.arithmetic_shift_right
/-- `DEF_HELPER_BINARY(shift_left, shift_left)`, 64-bit form. -/
def helper_sym_shift_left_i64 := DEF_HELPER_BINARY_i64 BinOp.shift_left
/-- `DEF_HELPER_BINARY(shift_left, shift_left)`, 32-bit form. -/
def helper_sym_shift_left_i32 := DEF_HELPER_BINARY_i32 BinOp.shift_left

/-- The type shared by the binary helpers:
`(arg1, arg1_expr, arg2, arg2_expr)` to a handle. -/
abbrev BinaryHelper : Type := Nat → Option SymExpr → Nat → Option SymExpr → Sym (Option SymExpr)

/-! ### Unary negate, derived bitwise helpers, unary complement -/

/-- The helper `helper_sym_neg`. -/
def helper_sym_neg (expr : Option SymExpr) : Sym (Option SymExpr) :=
  match expr with
  | none => pure none
  | some e => do
      let w ← _sym_bits_helper e
      let zero ← _sym_build_integer 0 w
      let r ← _sym_build_sub zero e
      pure (some r)

/-- The helper `helper_sym_andc_i64`. -/
def helper_sym_andc_i64 : BinaryHelper := fun arg1 arg1_expr arg2 arg2_expr => do
  match ← BINARY_HELPER_ENSURE_EXPRESSIONS arg1 arg1_expr arg2 arg2_expr with
  | none => pure none
  | some (a, b) => do
      let nb ← _sym_build_neg b
      let r ← _sym_build_and a nb
      pure (some r)

/-- The helper `helper_sym_andc_i32`. -/
def helper_sym_andc_i32 : BinaryHelper := fun arg1 arg1_expr arg2 arg2_expr =>
  helper_sym_andc_i64 arg1 arg1_expr arg2 arg2_expr

/-- The helper `helper_sym_eqv_i64`. -/
def helper_sym_eqv_i64 : BinaryHelper := fun arg1 arg1_expr arg2 arg2_expr => do
  match ← BINARY_HELPER_ENSURE_EXPRESSIONS arg1 arg1_expr arg2 arg2_expr with
  | none => pure none
  | some (a, b) => do
      let x ← _sym_build_xor a b
      let r ← _sym_build_neg x
      pure (some r)

/-- The helper `helper_sym_eqv_i32`. -/
def helper_sym_eqv_i32 : BinaryHelper := fun arg1 arg1_expr arg2 arg2_expr =>
  helper_sym_eqv_i64 arg1 arg1_expr arg2 arg2_expr

/-- The helper `helper_sym_nand_i64`. -/
def helper_sym_nand_i64 : BinaryHelper := fun arg1 arg1_expr arg2 arg2_expr => do
  match ← BINARY_HELPER_ENSURE_EXPRESSIONS arg1 arg1_expr arg2 arg2_expr with
  | none => pure none
  | some (a, b) => do
      let x ← _sym_build_and a b
      let r ← _sym_build_neg x
      pure (some r)

/-- The helper `helper_sym_nand_i32`. -/
def helper_sym_nand_i32 : BinaryHelper := fun arg1 arg1_expr arg2 arg2_expr =>
  helper_sym_nand_i64 arg1 arg1_expr arg2 arg2_expr

/-- The helper `helper_sym_nor_i64`. -/
def helper_sym_nor_i64 : BinaryHelper := fun arg1 arg1_expr arg2 arg2_expr => do
  match ← BINARY_HELPER_ENSURE_EXPRESSIONS arg1 arg1_expr arg2 arg2_expr with
  | none => pure none
  | some (a, b) => do
      let x ← _sym_build_or a b
      let r ← _sym_build_neg x
      pure (some r)

/-- The helper `helper_sym_nor_i32`. -/
def helper_sym_nor_i32 : BinaryHelper := fun arg1 arg1_expr arg2 arg2_expr =>
  helper_sym_nor_i64 arg1 arg1_expr arg2 arg2_expr

/-- The helper `helper_sym_orc_i64`. -/
def helper_sym_orc_i64 : BinaryHelper := fun arg1 arg1_expr arg2 arg2_expr => do
  match ← BINARY_HELPER_ENSURE_EXPRESSIONS arg1 arg1_expr arg2 arg2_expr with
  | none => pure none
  | some (a, b) => do
      let nb ← _sym_build_neg b
      let r ← _sym_build_or a nb
      pure (some r)

/-- The helper `helper_sym_orc_i32`. -/
def helper_sym_orc_i32 : BinaryHelper := fun arg1 arg1_expr arg2 arg2_expr =>
  helper_sym_orc_i64 arg1 arg1_expr arg2 arg2_expr

/-- The helper `helper_sym_not`. -/
def helper_sym_not (expr : Option SymExpr) : Sym (Option SymExpr) :=
  match expr with
  | none => pure none
  | some e => do
      let r ← _sym_build_neg e
      pure (some r)

/-! ### Width adjustment -/

/-- The helper `helper_sym_sext_or_trunc`; `target_length` is a `uint64_t` and
`desired_bits` a `size_t`, so the product wraps at `2 ^ 64`. -/
def helper_sym_sext_or_trunc (expr : Option SymExpr) (target_length : Nat) :
    Sym (Option SymExpr) :=
  match expr with
  | none => pure none
  | some e => do
      let current_bits ← _sym_bits_helper e
      let desired_bits := (target_length * 8) % 2 ^ 64
      if current_bits = desired_bits then
        pure (some e)
      else if current_bits > desired_bits then do
        let r ← _sym_build_trunc e desired_bits
        pure (some r)
      else if current_bits < desired_bits then do
        let r ← _sym_build_sext e desired_bits
        pure (some r)
      else
        g_assert_not_reached

/-- The helper `helper_sym_zext_or_trunc`. -/
def helper_sym_zext_or_trunc (expr : Option SymExpr) (target_length : Nat) :
    Sym (Option SymExpr) :=
  match expr with
  | none => pure none
  | some e => do
      let current_bits ← _sym_bits_helper e
      let desired_bits := (target_length * 8) % 2 ^ 64
      if current_bits = desired_bits then
        pure (some e)
      else if current_bits > desired_bits then do
        let r ← _sym_build_trunc e desired_bits
        pure (some r)
      else if current_bits < desired_bits then do
        let r ← _sym_build_zext e desired_bits
        pure (some r)
      else
        g_assert_not_reached

/-! ### Bit-field extract and deposit -/

/-- The C expression `ofs + len - 1` on `uint64_t` operands. -/
def extract_first_bit (ofs len : Nat) : Nat :=
  ((ofs + len) % 2 ^ 64 + (2 ^ 64 - 1)) % 2 ^ 64

/-- The helper `helper_sym_extract_i64`.  C does not fix the order in which the
two arguments of the outer call are evaluated; the extract is built first
here. -/
def helper_sym_extract_i64 (expr : Option SymExpr) (ofs len : Nat) : Sym (Option SymExpr) :=
  match expr with
  | none => pure none
  | some e => do
      let field ← _sym_extract_helper e (extract_first_bit ofs len) ofs
      let w ← _sym_bits_helper e
      let r ← _sym_build_zext field w
      pure (some r)

/-- The helper `helper_sym_extract_i32`. -/
def helper_sym_extract_i32 (expr : Option SymExpr) (ofs len : Nat) : Sym (Option SymExpr) :=
  helper_sym_extract_i64 expr ofs len

/-- The helper `helper_sym_sextract_i64`, with the same order of evaluation as
`helper_sym_extract_i64`. -/
def helper_sym_sextract_i64 (expr : Option SymExpr) (ofs len : Nat) : Sym (Option SymExpr) :=
  match expr with
  | none => pure none
  | some e => do
      let field ← _sym_extract_helper e (extract_first_bit ofs len) ofs
      let w ← _sym_bits_helper e
      let r ← _sym_build_sext field w
      pure (some r)

/-- The helper `helper_sym_sextract_i32`. -/
def helper_sym_sextract_i32 (expr : Option SymExpr) (ofs len : Nat) : Sym (Option SymExpr) :=
  helper_sym_sextract_i64 expr ofs len

/-- The C shift `x << n` on an unsigned type of `width` bits: undefined when
`n` is not smaller than the width, otherwise the product modulo
`2 ^ width`. -/
def shift_left_unsigned (width x n : Nat) : Sym Nat :=
  if n < width then pure ((x <<< n) % 2 ^ width) else undefined_behaviour

/-- The C complement `~x` on an unsigned type of `width` bits. -/
def complement_unsigned (width x : Nat) : Nat := 2 ^ width - 1 - x % 2 ^ width

/-- The C difference `x - 1` on an unsigned type of `width` bits. -/
def pred_unsigned (width x : Nat) : Nat := (x % 2 ^ width + (2 ^ width - 1)) % 2 ^ width

/-- The body shared by `helper_sym_deposit_i32` (`width = 32`) and
`helper_sym_deposit_i64` (`width = 64`), which differ in the type of `mask`
and in the width of the three constants.  C does not fix the order in which
the arguments of a call are evaluated; the builders are called here from left
to right. -/
def deposit_body (width : Nat) (arg1 : Nat) (arg1_expr : Option SymExpr)
    (arg2 : Nat) (arg2_expr : Option SymExpr) (ofs len : Nat) : Sym (Option SymExpr) := do
  match ← BINARY_HELPER_ENSURE_EXPRESSIONS arg1 arg1_expr arg2 arg2_expr with
  | none => pure none
  | some (a, b) => do
      let one_shifted ← shift_left_unsigned width 1 len
      let mask := pred_unsigned width one_shifted
      let mask_shifted ← shift_left_unsigned width mask ofs
      let c1 ← _sym_build_integer (complement_unsigned width mask_shifted) width
      let keep ← _sym_build_and a c1
      let c2 ← _sym_build_integer mask width
      let field ← _sym_build_and b c2
      let c3 ← _sym_build_integer ofs width
      let moved ← _sym_build_shift_left field c3
      let r ← _sym_build_or keep moved
      pure (some r)

/-- The helper `helper_sym_deposit_i32`. -/
def helper_sym_deposit_i32 (arg1 : Nat) (arg1_expr : Option SymExpr)
    (arg2 : Nat) (arg2_expr : Option SymExpr) (ofs len : Nat) : Sym (Option SymExpr) :=
  deposit_body 32 arg1 arg1_expr arg2 arg2_expr ofs len

/-- The helper `helper_sym_deposit_i64`. -/
def helper_sym_deposit_i64 (arg1 : Nat) (arg1_expr : Option SymExpr)
    (arg2 : Nat) (arg2_expr : Option SymExpr) (ofs len : Nat) : Sym (Option SymExpr) :=
  deposit_body 64 arg1 arg1_expr arg2 arg2_expr ofs len

/-! ### Comparison and path constraint -/

/-- The values of the ten `TCG_COND_*` enumerators that `sym_setcond_internal`
switches on.  They are declared in `tcg.h`, which is not part of the
translation unit, and are taken as a parameter. -/
structure TCGCond where
  TCG_COND_EQ : Int
  TCG_COND_NE : Int
  TCG_COND_LT : Int
  TCG_COND_GE : Int
  TCG_COND_LE : Int
  TCG_COND_GT : Int
  TCG_COND_LTU : Int
  TCG_COND_GEU : Int
  TCG_COND_LEU : Int
  TCG_COND_GTU : Int
  deriving DecidableEq, Repr

/-- The `switch (cond)` of `sym_setcond_internal`: the builder assigned to
`handler`, or `none` for the `default:` label. -/
def setcond_handler (codes : TCGCond) (cond : Int) : Option CmpOp :=
  if cond = codes.TCG_COND_EQ then some CmpOp.equal
  else if cond = codes.TCG_COND_NE then some CmpOp.not_equal
  else if cond = codes.TCG_COND_LT then some CmpOp.signed_less_than
  else if cond = codes.TCG_COND_GE then some CmpOp.signed_greater_equal
  else if cond = codes.TCG_COND_LE then some CmpOp.signed_less_equal
  else if cond = codes.TCG_COND_GT then some CmpOp.signed_greater_than
  else if cond = codes.TCG_COND_LTU then some CmpOp.unsigned_less_than
  else if cond = codes.TCG_COND_GEU then some CmpOp.unsigned_greater_equal
  else if cond = codes.TCG_COND_LEU then some CmpOp.unsigned_less_equal
  else if cond = codes.TCG_COND_GTU then some CmpOp.unsigned_greater_than
  else none

/-- The static function `sym_setcond_internal`. -/
def sym_setcond_internal (codes : TCGCond) (arg1 : Nat) (arg1_expr : Option SymExpr)
    (arg2 : Nat) (arg2_expr : Option SymExpr) (cond : Int) (result : Nat)
    (result_bits : Nat) : Sym (Option SymExpr) := do
  match ← BINARY_HELPER_ENSURE_EXPRESSIONS arg1 arg1_expr arg2 arg2_expr with
  | none => pure none
  | some (a, b) =>
      match setcond_handler codes cond with
      | none => g_assert_not_reached
      | some handler => do
          let condition ← _sym_build_compare handler a b
          _sym_push_path_constraint condition result 42
          let r ← _sym_build_bool_to_bits condition result_bits
          pure (some r)

/-- The helper `helper_sym_setcond_i32`. -/
def helper_sym_setcond_i32 (codes : TCGCond) (arg1 : Nat) (arg1_expr : Option SymExpr)
    (arg2 : Nat) (arg2_expr : Option SymExpr) (cond : Int) (result : Nat) :
    Sym (Option SymExpr) :=
  sym_setcond_internal codes arg1 arg1_expr arg2 arg2_expr cond result 32

/-- The helper `helper_sym_setcond_i64`. -/
def helper_sym_setcond_i64 (codes : TCGCond) (arg1 : Nat) (arg1_expr : Option SymExpr)
    (arg2 : Nat) (arg2_expr : Option SymExpr) (cond : Int) (result : Nat) :
    Sym (Option SymExpr) :=
  sym_setcond_internal codes arg1 arg1_expr arg2 arg2_expr cond result 64

/-! ### Helpers that are not implemented -/

/-- The value of the macro `NOT_IMPLEMENTED`, which is `NULL`. -/
def NOT_IMPLEMENTED : Option SymExpr := none

/-- The helper `helper_sym_bswap`. -/
def helper_sym_bswap (_expr : Option SymExpr) (_length : Nat) : Sym (Option SymExpr) :=
  pure NOT_IMPLEMENTED

/-- The helper `helper_sym_rotate_left_i64`. -/
def helper_sym_rotate_left_i64 : BinaryHelper := fun _arg1 _arg1_expr _arg2 _arg2_expr =>
  pure NOT_IMPLEMENTED

/-- The helper `helper_sym_rotate_left_i32`. -/
def helper_sym_rotate_left_i32 : BinaryHelper := fun arg1 arg1_expr arg2 arg2_expr =>
  helper_sym_rotate_left_i64 arg1 arg1_expr arg2 arg2_expr

/-- The helper `helper_sym_rotate_right_i64`. -/
def helper_sym_rotate_right_i64 : BinaryHelper := fun _arg1 _arg1_expr _arg2 _arg2_expr =>
  pure NOT_IMPLEMENTED

/-- The helper `helper_sym_rotate_right_i32`. -/
def helper_sym_rotate_right_i32 : BinaryHelper := fun arg1 arg1_expr arg2 arg2_expr =>
  helper_sym_rotate_right_i64 arg1 arg1_expr arg2 arg2_expr

/-- The helper `helper_sym_extract2_i32`. -/
def helper_sym_extract2_i32 (_ah : Nat) (_ah_expr : Option SymExpr) (_al : Nat)
    (_al_expr : Option SymExpr) (_ofs : Nat) : Sym (Option SymExpr) :=
  pure NOT_IMPLEMENTED

/-- The helper `helper_sym_extract2_i64`. -/
def helper_sym_extract2_i64 (_ah : Nat) (_ah_expr : Option SymExpr) (_al : Nat)
    (_al_expr : Option SymExpr) (_ofs : Nat) : Sym (Option SymExpr) :=
  pure NOT_IMPLEMENTED

/-! ### Memory -/

/-- The signed reading of the low `w` bits of `x`. -/
def toSigned (w x : Nat) : Int :=
  if x % 2 ^ w < 2 ^ (w - 1) then ((x % 2 ^ w : Nat) : Int)
  else ((x % 2 ^ w : Nat) : Int) - ((2 ^ w : Nat) : Int)

/-- The `w`-bit pattern of an integer. -/
def ofInt (w : Nat) (z : Int) : Nat := (z % ((2 ^ w : Nat) : Int)).toNat

/-- Modelled from the spec: the standard bit-vector meaning of the two-operand
builders at width `w`, on operand values `a` and `b`; division and remainder
by zero follow the SMT-LIB convention. -/
def evalBinOp (op : BinOp) (w a b : Nat) : Nat :=
  match op with
  | .add => (a + b) % 2 ^ w
  | .sub => (a + (2 ^ w - b % 2 ^ w)) % 2 ^ w
  | .mul => (a * b) % 2 ^ w
  | .signed_div =>
      if b % 2 ^ w = 0 then (if toSigned w a < 0 then 1 % 2 ^ w else 2 ^ w - 1)
      else ofInt w (Int.tdiv (toSigned w a) (toSigned w b))
  | .unsigned_div => if b % 2 ^ w = 0 then 2 ^ w - 1 else (a / b) % 2 ^ w
  | .signed_rem => ofInt w (Int.tmod (toSigned w a) (toSigned w b))
  | .unsigned_rem => if b % 2 ^ w = 0 then a % 2 ^ w else (a % b) % 2 ^ w
  | .and => (a &&& b) % 2 ^ w
  | .or => (a ||| b) % 2 ^ w
  | .xor => (a ^^^ b) % 2 ^ w
  | .logical_shift_right => ((a % 2 ^ w) >>> b) % 2 ^ w
  | .arithmetic_shift_right => ofInt w (toSigned w a >>> b)
  | .shift_left => (a <<< b) % 2 ^ w

/-- Modelled from the spec: the meaning of the ten comparison builders at
width `w`. -/
def evalCmpOp (op : CmpOp) (w a b : Nat) : Bool :=
  match op with
  | .equal => decide (a % 2 ^ w = b % 2 ^ w)
  | .not_equal => decide (a % 2 ^ w ≠ b % 2 ^ w)
  | .signed_less_than => decide (toSigned w a < toSigned w b)
  | .signed_greater_equal => decide (toSigned w a ≥ toSigned w b)
  | .signed_less_equal => decide (toSigned w a ≤ toSigned w b)
  | .signed_greater_than => decide (toSigned w a > toSigned w b)
  | .unsigned_less_than => decide (a % 2 ^ w < b % 2 ^ w)
  | .unsigned_greater_equal => decide (a % 2 ^ w ≥ b % 2 ^ w)
  | .unsigned_less_equal => decide (a % 2 ^ w ≤ b % 2 ^ w)
  | .unsigned_greater_than => decide (a % 2 ^ w > b % 2 ^ w)

/-- Modelled from the spec: the value an expression denotes under a valuation
of the inputs, with every builder given its standard bit-vector meaning: the
negate builder is two's-complement negation, zero-extend and truncate keep the
low bits, sign-extend keeps the signed value, extract takes the inclusive bit
range, a comparison is `1` when it holds and `0` otherwise. -/
def eval (ν : Nat → Nat) : SymExpr → Nat
  | .input id w => ν id % 2 ^ w
  | .integer value w => value % 2 ^ w
  | .binary op a b => evalBinOp op (bits a) (eval ν a) (eval ν b)
  | .neg e => (2 ^ bits e - eval ν e % 2 ^ bits e) % 2 ^ bits e
  | .sext e w => ofInt w (toSigned (bits e) (eval ν e))
  | .zext e w => eval ν e % 2 ^ w
  | .trunc e w => eval ν e % 2 ^ w
  | .extract e first_bit last_bit => (eval ν e / 2 ^ last_bit) % 2 ^ (first_bit - last_bit + 1)
  | .compare op a b => if evalCmpOp op (bits a) (eval ν a) (eval ν b) then 1 else 0
  | .bool_to_bits e w => (if eval ν e = 0 then 0 else 1) % 2 ^ w

/-- The bitwise complement of the low `w` bits of `x`. -/
def bitNot (w x : Nat) : Nat := 2 ^ w - 1 - x % 2 ^ w

/-! ## Tables of helpers -/

/-- The helpers whose body starts with `BINARY_HELPER_ENSURE_EXPRESSIONS`: the
thirteen `DEF_HELPER_BINARY` lines, `andc`, `eqv`, `nand`, `nor`, `orc`, each in
its 32-bit and 64-bit form, and `deposit` and `setcond` applied to their
further parameters. -/
def binary_shadow_operations (codes : TCGCond) (ofs len : Nat) (cond : Int) (result : Nat) :
    List BinaryHelper :=
  [helper_sym_add_i32, helper_sym_add_i64,
   helper_sym_sub_i32, helper_sym_sub_i64,
   helper_sym_mul_i32, helper_sym_mul_i64,
   helper_sym_div_i32, helper_sym_div_i64,
   helper_sym_divu_i32, helper_sym_divu_i64,
   helper_sym_rem_i32, helper_sym_rem_i64,
   helper_sym_remu_i32, helper_sym_remu_i64,
   helper_sym_and_i32, helper_sym_and_i64,
   helper_sym_or_i32, helper_sym_or_i64,
   helper_sym_xor_i32, helper_sym_xor_i64,
   helper_sym_shift_right_i32, helper_sym_shift_right_i64,
   helper_sym_arithmetic_shift_right_i32, helper_sym_arithmetic_shift_right_i64,
   helper_sym_shift_left_i32, helper_sym_shift_left_i64,
   helper_sym_andc_i32, helper_sym_andc_i64,
   helper_sym_eqv_i32, helper_sym_eqv_i64,
   helper_sym_nand_i32, helper_sym_nand_i64,
   helper_sym_nor_i32, helper_sym_nor_i64,
   helper_sym_orc_i32, helper_sym_orc_i64,
   fun arg1 arg1_expr arg2 arg2_expr =>
     helper_sym_deposit_i32 arg1 arg1_expr arg2 arg2_expr ofs len,
   fun arg1 arg1_expr arg2 arg2_expr =>
     helper_sym_deposit_i64 arg1 arg1_expr arg2 arg2_expr ofs len,
   fun arg1 arg1_expr arg2 arg2_expr =>
     helper_sym_setcond_i32 codes arg1 arg1_expr arg2 arg2_expr cond result,
   fun arg1 arg1_expr arg2 arg2_expr =>
     helper_sym_setcond_i64 codes arg1 arg1_expr arg2 arg2_expr cond result]

/-- The value denoted by the handle a helper returned: `none` when the helper
did not return or returned `NULL`. -/
def denote (ν : Nat → Nat) (run : Outcome (Option SymExpr) × List Call) : Option Nat :=
  match run.1 with
  | Outcome.ret (some e) => some (eval ν e)
  | _ => none

/-- An assignment of the ten condition codes, used to instantiate theorems. -/
def example_codes : TCGCond :=
  { TCG_COND_EQ := 8, TCG_COND_NE := 9, TCG_COND_LT := 2, TCG_COND_GE := 3,
    TCG_COND_LE := 10, TCG_COND_GT := 11, TCG_COND_LTU := 4, TCG_COND_GEU := 5,
    TCG_COND_LEU := 12, TCG_COND_GTU := 13 }

/-- The valuation under which input `0` has the value `1` and every other input
the value `2`. -/
def valuation_one_two : Nat → Nat
  | 0 => 1
  | _ => 2

/-- The deposit formula in the words of the specification, at operand width
`width`: `OR(AND(a, const(~(mask << ofs))), SHIFT_LEFT(AND(b, const(mask)),
const(ofs)))` with `mask = (1 << len) - 1`, all on mathematical integers. -/
def deposit_formula (width : Nat) (a b : SymExpr) (ofs len : Nat) : SymExpr :=
  SymExpr.binary BinOp.or
    (SymExpr.binary BinOp.and a
      (SymExpr.integer (2 ^ width - 1 - (2 ^ len - 1) * 2 ^ ofs) width))
    (SymExpr.binary BinOp.shift_left
      (SymExpr.binary BinOp.and b (SymExpr.integer (2 ^ len - 1) width))
      (SymExpr.integer ofs width))

/-- The ten `case` labels of the `switch` in `sym_setcond_internal`, in the
order of the source. -/
def TCGCond.values (codes : TCGCond) : List Int :=
  [codes.TCG_COND_EQ, codes.TCG_COND_NE, codes.TCG_COND_LT, codes.TCG_COND_GE,
   codes.TCG_COND_LE, codes.TCG_COND_GT, codes.TCG_COND_LTU, codes.TCG_COND_GEU,
   codes.TCG_COND_LEU, codes.TCG_COND_GTU]

/-- The `case` labels are pairwise distinct, as C requires of the labels of one
`switch`. -/
def TCGCond.distinct (codes : TCGCond) : Prop := (TCGCond.values codes).Nodup

/-- The `case` label under which the `switch` assigns a builder to `handler`. -/
def TCGCond.label (codes : TCGCond) : CmpOp → Int
  | .equal => codes.TCG_COND_EQ
  | .not_equal => codes.TCG_COND_NE
  | .signed_less_than => codes.TCG_COND_LT
  | .signed_greater_equal => codes.TCG_COND_GE
  | .signed_less_equal => codes.TCG_COND_LE
  | .signed_greater_than => codes.TCG_COND_GT
  | .unsigned_less_than => codes.TCG_COND_LTU
  | .unsigned_greater_equal => codes.TCG_COND_GEU
  | .unsigned_less_equal => codes.TCG_COND_LEU
  | .unsigned_greater_than => codes.TCG_COND_GTU

/-- The helper returned a present (non-`NULL`) handle. -/
def returns_present (run : Outcome (Option SymExpr) × List Call) : Prop :=
  ∃ r : SymExpr, run.1 = Outcome.ret (some r)

/-- The helpers whose body is the materialization followed by builder calls
only: the thirteen `DEF_HELPER_BINARY` lines and `andc`, `eqv`, `nand`, `nor`,
`orc`, each in its 32-bit and 64-bit form. -/
def primitive_and_derived_operations : List BinaryHelper :=
  [helper_sym_add_i32, helper_sym_add_i64,
   helper_sym_sub_i32, helper_sym_sub_i64,
   helper_sym_mul_i32, helper_sym_mul_i64,
   helper_sym_div_i32, helper_sym_div_i64,
   helper_sym_divu_i32, helper_sym_divu_i64,
   helper_sym_rem_i32, helper_sym_rem_i64,
   helper_sym_remu_i32, helper_sym_remu_i64,
   helper_sym_and_i32, helper_sym_and_i64,
   helper_sym_or_i32, helper_sym_or_i64,
   helper_sym_xor_i32, helper_sym_xor_i64,
   helper_sym_shift_right_i32, helper_sym_shift_right_i64,
   helper_sym_arithmetic_shift_right_i32, helper_sym_arithmetic_shift_right_i64,
   helper_sym_shift_left_i32, helper_sym_shift_left_i64,
   helper_sym_andc_i32, helper_sym_andc_i64,
   helper_sym_eqv_i32, helper_sym_eqv_i64,
   helper_sym_nand_i32, helper_sym_nand_i64,
   helper_sym_nor_i32, helper_sym_nor_i64,
   helper_sym_orc_i32, helper_sym_orc_i64]

/-- A backend call is width-coherent at `w`: when it is the call of a
two-operand builder (a primitive binary builder or a comparison builder), both
operands have bit width `w`. -/
def two_operand_widths (w : Nat) : Call → Prop
  | Call.build (SymExpr.binary _ a b) => bits a = w ∧ bits b = w
  | Call.build (SymExpr.compare _ a b) => bits a = w ∧ bits b = w
  | _ => True

/-! ### Deposit as compiled -/

/-- The shift `x << n` on an unsigned type of `width` bits as the compiled
helper performs it: the C value when `n` is below the width; when it is not,
where C leaves the shift undefined, the value `oob x n` that the shift
instruction of the target leaves in the `width`-bit variable. -/
def shift_left_target (oob : Nat → Nat → Nat) (width x n : Nat) : Nat :=
  if n < width then (x <<< n) % 2 ^ width else oob x n % 2 ^ width

/-- A shift instruction that takes the count modulo the width of the operand,
as the shift instructions of x86-64 do. -/
def count_modulo_width (width x n : Nat) : Nat := x <<< (n % width)

/-- The body of `helper_sym_deposit_i32` (`width = 32`) and
`helper_sym_deposit_i64` (`width = 64`) as compiled: the statements of
`deposit_body` in the same order, the two shifts `1 << len` and `mask << ofs`
performed by `shift_left_target`.  The source does not branch on `mask`: the
builders are called with whatever values the shifts gave. -/
def deposit_body_target (oob : Nat → Nat → Nat) (width : Nat) (arg1 : Nat)
    (arg1_expr : Option SymExpr) (arg2 : Nat) (arg2_expr : Option SymExpr) (ofs len : Nat) :
    Sym (Option SymExpr) := do
  match ← BINARY_HELPER_ENSURE_EXPRESSIONS arg1 arg1_expr arg2 arg2_expr with
  | none => pure none
  | some (a, b) => do
      let one_shifted := shift_left_target oob width 1 len
      let mask := pred_unsigned width one_shifted
      let mask_shifted := shift_left_target oob width mask ofs
      let c1 ← _sym_build_integer (complement_unsigned width mask_shifted) width
      let keep ← _sym_build_and a c1
      let c2 ← _sym_build_integer mask width
      let field ← _sym_build_and b c2
      let c3 ← _sym_build_integer ofs width
      let moved ← _sym_build_shift_left field c3
      let r ← _sym_build_or keep moved
      pure (some r)

/-- The helper `helper_sym_deposit_i32` as compiled. -/
def helper_sym_deposit_i32_target (oob : Nat → Nat → Nat) (arg1 : Nat)
    (arg1_expr : Option SymExpr) (arg2 : Nat) (arg2_expr : Option SymExpr) (ofs len : Nat) :
    Sym (Option SymExpr) :=
  deposit_body_target oob 32 arg1 arg1_expr arg2 arg2_expr ofs len

/-- The helper `helper_sym_deposit_i64` as compiled. -/
def helper_sym_deposit_i64_target (oob : Nat → Nat → Nat) (arg1 : Nat)
    (arg1_expr : Option SymExpr) (arg2 : Nat) (arg2_expr : Option SymExpr) (ofs len : Nat) :
    Sym (Option SymExpr) :=
  deposit_body_target oob 64 arg1 arg1_expr arg2 arg2_expr ofs len

/-! ## Theorems -/

/-- C1 (concretization closure): every helper that starts with
`BINARY_HELPER_ENSURE_EXPRESSIONS` returns `NULL` when both expressions are
`NULL`, whatever the concrete values and the further parameters are, and the
list of backend calls is left as it was: no query, no constant, no builder and
no path constraint. -/
theorem concretization_closure (codes : TCGCond) (ofs len : Nat) (cond : Int) (result : Nat)
    (h : BinaryHelper) (hh : h ∈ binary_shadow_operations codes ofs len cond result)
    (arg1 arg2 : Nat) (t : List Call) :
    h arg1 none arg2 none t = (Outcome.ret none, t) := by
  simp only [binary_shadow_operations, List.mem_cons, List.mem_singleton, List.not_mem_nil,
    or_false] at hh
  repeat
    rcases hh with rfl | hh
    · rfl

/-- Witness for C1 at the 32-bit deposit helper. -/
theorem concretization_closure_witness :
    helper_sym_deposit_i32 7 none 9 none 4 4 [] = (Outcome.ret none, []) :=
  concretization_closure example_codes 4 4 8 1
    (fun arg1 arg1_expr arg2 arg2_expr => helper_sym_deposit_i32 arg1 arg1_expr arg2 arg2_expr 4 4)
    (by simp [binary_shadow_operations]) 7 9 []

/-- C2 (operand materialization, width coherence): when exactly one expression
is `NULL`, `BINARY_HELPER_ENSURE_EXPRESSIONS` keeps the present handle and
replaces the missing one by the constant built from that operand's own
concrete value with the bit width of the present expression, after one width
query; when both are present it keeps both and calls nothing.  Every helper
that starts with the macro continues on that pair: called with one missing
expression it does what it does when called with the constant in its place,
after the query and the construction of the constant. -/
theorem materialization_width_coherence (codes : TCGCond) (ofs len : Nat) (cond : Int)
    (result : Nat) (h : BinaryHelper)
    (hh : h ∈ binary_shadow_operations codes ofs len cond result)
    (arg1 arg2 : Nat) (e e1 e2 : SymExpr) (t : List Call) :
    BINARY_HELPER_ENSURE_EXPRESSIONS arg1 (some e) arg2 none t
        = (Outcome.ret (some (e, SymExpr.integer arg2 (bits e))),
           t ++ [Call.bits_helper e, Call.build (SymExpr.integer arg2 (bits e))])
    ∧ BINARY_HELPER_ENSURE_EXPRESSIONS arg1 none arg2 (some e) t
        = (Outcome.ret (some (SymExpr.integer arg1 (bits e), e)),
           t ++ [Call.bits_helper e, Call.build (SymExpr.integer arg1 (bits e))])
    ∧ BINARY_HELPER_ENSURE_EXPRESSIONS arg1 (some e1) arg2 (some e2) t
        = (Outcome.ret (some (e1, e2)), t)
    ∧ bits (SymExpr.integer arg2 (bits e)) = bits e
    ∧ bits (SymExpr.integer arg1 (bits e)) = bits e
    ∧ h arg1 (some e) arg2 none t
        = h arg1 (some e) arg2 (some (SymExpr.integer arg2 (bits e)))
            (t ++ [Call.bits_helper e, Call.build (SymExpr.integer arg2 (bits e))])
    ∧ h arg1 none arg2 (some e) t
        = h arg1 (some (SymExpr.integer arg1 (bits e))) arg2 (some e)
            (t ++ [Call.bits_helper e, Call.build (SymExpr.integer arg1 (bits e))]) := by
  refine ⟨?_, ?_, rfl, rfl, rfl, ?_, ?_⟩
  · simp [BINARY_HELPER_ENSURE_EXPRESSIONS, bind, Sym.bind, pure, Sym.pure, _sym_bits_helper,
      _sym_build_integer, emit]
  · simp [BINARY_HELPER_ENSURE_EXPRESSIONS, bind, Sym.bind, pure, Sym.pure, _sym_bits_helper,
      _sym_build_integer, emit]
  · simp only [binary_shadow_operations, List.mem_cons, List.mem_singleton, List.not_mem_nil,
      or_false] at hh
    repeat
      rcases hh with rfl | hh
      · simp [helper_sym_add_i32, helper_sym_add_i64, helper_sym_sub_i32, helper_sym_sub_i64,
        helper_sym_mul_i32, helper_sym_mul_i64, helper_sym_div_i32, helper_sym_div_i64,
        helper_sym_divu_i32, helper_sym_divu_i64, helper_sym_rem_i32, helper_sym_rem_i64,
        helper_sym_remu_i32, helper_sym_remu_i64, helper_sym_and_i32, helper_sym_and_i64,
        helper_sym_or_i32, helper_sym_or_i64, helper_sym_xor_i32, helper_sym_xor_i64,
        helper_sym_shift_right_i32, helper_sym_shift_right_i64,
        helper_sym_arithmetic_shift_right_i32, helper_sym_arithmetic_shift_right_i64,
        helper_sym_shift_left_i32, helper_sym_shift_left_i64,
        helper_sym_andc_i32, helper_sym_andc_i64, helper_sym_eqv_i32, helper_sym_eqv_i64,
        helper_sym_nand_i32, helper_sym_nand_i64, helper_sym_nor_i32, helper_sym_nor_i64,
        helper_sym_orc_i32, helper_sym_orc_i64, helper_sym_deposit_i32, helper_sym_deposit_i64,
        deposit_body, helper_sym_setcond_i32, helper_sym_setcond_i64, sym_setcond_internal,
        DEF_HELPER_BINARY_i32, DEF_HELPER_BINARY_i64, BINARY_HELPER_ENSURE_EXPRESSIONS,
        bind, Sym.bind, pure, Sym.pure, _sym_bits_helper, _sym_build_integer, emit]
  · simp only [binary_shadow_operations, List.mem_cons, List.mem_singleton, List.not_mem_nil,
      or_false] at hh
    repeat
      rcases hh with rfl | hh
      · simp [helper_sym_add_i32, helper_sym_add_i64, helper_sym_sub_i32, helper_sym_sub_i64,
        helper_sym_mul_i32, helper_sym_mul_i64, helper_sym_div_i32, helper_sym_div_i64,
        helper_sym_divu_i32, helper_sym_divu_i64, helper_sym_rem_i32, helper_sym_rem_i64,
        helper_sym_remu_i32, helper_sym_remu_i64, helper_sym_and_i32, helper_sym_and_i64,
        helper_sym_or_i32, helper_sym_or_i64, helper_sym_xor_i32, helper_sym_xor_i64,
        helper_sym_shift_right_i32, helper_sym_shift_right_i64,
        helper_sym_arithmetic_shift_right_i32, helper_sym_arithmetic_shift_right_i64,
        helper_sym_shift_left_i32, helper_sym_shift_left_i64,
        helper_sym_andc_i32, helper_sym_andc_i64, helper_sym_eqv_i32, helper_sym_eqv_i64,
        helper_sym_nand_i32, helper_sym_nand_i64, helper_sym_nor_i32, helper_sym_nor_i64,
        helper_sym_orc_i32, helper_sym_orc_i64, helper_sym_deposit_i32, helper_sym_deposit_i64,
        deposit_body, helper_sym_setcond_i32, helper_sym_setcond_i64, sym_setcond_internal,
        DEF_HELPER_BINARY_i32, DEF_HELPER_BINARY_i64, BINARY_HELPER_ENSURE_EXPRESSIONS,
        bind, Sym.bind, pure, Sym.pure, _sym_bits_helper, _sym_build_integer, emit]

/-- Witness for C2: a 64-bit helper whose first operand is a 32-bit expression
builds the constant for the second operand at 32 bits. -/
theorem materialization_width_coherence_witness :
    BINARY_HELPER_ENSURE_EXPRESSIONS 5 (some (SymExpr.input 0 32)) 7 none []
        = (Outcome.ret (some (SymExpr.input 0 32, SymExpr.integer 7 32)),
           [Call.bits_helper (SymExpr.input 0 32), Call.build (SymExpr.integer 7 32)]) :=
  (materialization_width_coherence example_codes 0 1 8 1 helper_sym_add_i64
    (by simp [binary_shadow_operations]) 5 7 (SymExpr.input 0 32) (SymExpr.input 1 64)
    (SymExpr.input 2 64) []).1

/-- C3 (primitive dispatch): each `DEF_HELPER_BINARY` line defines helpers that,
when at least one expression is present, return the node made by the builder
the line names, applied to the two operands after materialization in the order
`(arg1_expr, arg2_expr)`; beyond the width query and the constant of the
materialization, that builder call is the only backend call. -/
theorem primitive_dispatch (h32 h64 : BinaryHelper) (op : BinOp)
    (hp : (h32, h64, op) ∈
      [(helper_sym_add_i32, helper_sym_add_i64, BinOp.add),
       (helper_sym_sub_i32, helper_sym_sub_i64, BinOp.sub),
       (helper_sym_mul_i32, helper_sym_mul_i64, BinOp.mul),
       (helper_sym_div_i32, helper_sym_div_i64, BinOp.signed_div),
       (helper_sym_divu_i32, helper_sym_divu_i64, BinOp.unsigned_div),
       (helper_sym_rem_i32, helper_sym_rem_i64, BinOp.signed_rem),
       (helper_sym_remu_i32, helper_sym_remu_i64, BinOp.unsigned_rem),
       (helper_sym_and_i32, helper_sym_and_i64, BinOp.and),
       (helper_sym_or_i32, helper_sym_or_i64, BinOp.or),
       (helper_sym_xor_i32, helper_sym_xor_i64, BinOp.xor),
       (helper_sym_shift_right_i32, helper_sym_shift_right_i64, BinOp.logical_shift_right),
       (helper_sym_arithmetic_shift_right_i32, helper_sym_arithmetic_shift_right_i64,
         BinOp.arithmetic_shift_right),
       (helper_sym_shift_left_i32, helper_sym_shift_left_i64, BinOp.shift_left)])
    (arg1 arg2 : Nat) (e1 e2 : SymExpr) (t : List Call) :
    (h64 arg1 (some e1) arg2 (some e2) t
        = (Outcome.ret (some (SymExpr.binary op e1 e2)),
           t ++ [Call.build (SymExpr.binary op e1 e2)])
      ∧ h64 arg1 (some e1) arg2 none t
        = (Outcome.ret (some (SymExpr.binary op e1 (SymExpr.integer arg2 (bits e1)))),
           t ++ [Call.bits_helper e1, Call.build (SymExpr.integer arg2 (bits e1)),
                 Call.build (SymExpr.binary op e1 (SymExpr.integer arg2 (bits e1)))])
      ∧ h64 arg1 none arg2 (some e2) t
        = (Outcome.ret (some (SymExpr.binary op (SymExpr.integer arg1 (bits e2)) e2)),
           t ++ [Call.bits_helper e2, Call.build (SymExpr.integer arg1 (bits e2)),
                 Call.build (SymExpr.binary op (SymExpr.integer arg1 (bits e2)) e2)]))
    ∧ (h32 arg1 (some e1) arg2 (some e2) t
        = (Outcome.ret (some (SymExpr.binary op e1 e2)),
           t ++ [Call.build (SymExpr.binary op e1 e2)])
      ∧ h32 arg1 (some e1) arg2 none t
        = (Outcome.ret (some (SymExpr.binary op e1 (SymExpr.integer arg2 (bits e1)))),
           t ++ [Call.bits_helper e1, Call.build (SymExpr.integer arg2 (bits e1)),
                 Call.build (SymExpr.binary op e1 (SymExpr.integer arg2 (bits e1)))])
      ∧ h32 arg1 none arg2 (some e2) t
        = (Outcome.ret (some (SymExpr.binary op (SymExpr.integer arg1 (bits e2)) e2)),
           t ++ [Call.bits_helper e2, Call.build (SymExpr.integer arg1 (bits e2)),
                 Call.build (SymExpr.binary op (SymExpr.integer arg1 (bits e2)) e2)])) := by
  simp only [List.mem_cons, List.mem_singleton, List.not_mem_nil, or_false, Prod.mk.injEq] at hp
  repeat
    rcases hp with ⟨rfl, rfl, rfl⟩ | hp
    · simp [helper_sym_add_i32, helper_sym_add_i64, helper_sym_sub_i32, helper_sym_sub_i64,
      helper_sym_mul_i32, helper_sym_mul_i64, helper_sym_div_i32, helper_sym_div_i64,
      helper_sym_divu_i32, helper_sym_divu_i64, helper_sym_rem_i32, helper_sym_rem_i64,
      helper_sym_remu_i32, helper_sym_remu_i64, helper_sym_and_i32, helper_sym_and_i64,
      helper_sym_or_i32, helper_sym_or_i64, helper_sym_xor_i32, helper_sym_xor_i64,
      helper_sym_shift_right_i32, helper_sym_shift_right_i64,
      helper_sym_arithmetic_shift_right_i32, helper_sym_arithmetic_shift_right_i64,
      helper_sym_shift_left_i32, helper_sym_shift_left_i64,
      DEF_HELPER_BINARY_i32, DEF_HELPER_BINARY_i64, BINARY_HELPER_ENSURE_EXPRESSIONS,
      bind, Sym.bind, pure, Sym.pure, _sym_bits_helper, _sym_build_integer, _sym_build, emit]
  obtain ⟨rfl, rfl, rfl⟩ := hp
  simp [helper_sym_add_i32, helper_sym_add_i64, helper_sym_sub_i32, helper_sym_sub_i64,
    helper_sym_mul_i32, helper_sym_mul_i64, helper_sym_div_i32, helper_sym_div_i64,
    helper_sym_divu_i32, helper_sym_divu_i64, helper_sym_rem_i32, helper_sym_rem_i64,
    helper_sym_remu_i32, helper_sym_remu_i64, helper_sym_and_i32, helper_sym_and_i64,
    helper_sym_or_i32, helper_sym_or_i64, helper_sym_xor_i32, helper_sym_xor_i64,
    helper_sym_shift_right_i32, helper_sym_shift_right_i64,
    helper_sym_arithmetic_shift_right_i32, helper_sym_arithmetic_shift_right_i64,
    helper_sym_shift_left_i32, helper_sym_shift_left_i64,
    DEF_HELPER_BINARY_i32, DEF_HELPER_BINARY_i64, BINARY_HELPER_ENSURE_EXPRESSIONS,
    bind, Sym.bind, pure, Sym.pure, _sym_bits_helper, _sym_build_integer, _sym_build, emit]

/-- Witness for C3: the signed division helper on a present first operand. -/
theorem primitive_dispatch_witness :
    helper_sym_div_i64 6 (some (SymExpr.input 0 64)) 3 none []
      = (Outcome.ret (some (SymExpr.binary BinOp.signed_div (SymExpr.input 0 64)
            (SymExpr.integer 3 64))),
         [Call.bits_helper (SymExpr.input 0 64), Call.build (SymExpr.integer 3 64),
          Call.build (SymExpr.binary BinOp.signed_div (SymExpr.input 0 64)
            (SymExpr.integer 3 64))]) :=
  (primitive_dispatch helper_sym_div_i32 helper_sym_div_i64 BinOp.signed_div
    (by simp) 6 3 (SymExpr.input 0 64) (SymExpr.input 1 64) []).1.2.1

/-- C4 (derived bitwise helpers), evaluated on 64-bit operands with the values
`1` and `2`, the negate builder being two's-complement negation: the
expressions returned by `andc`, `eqv`, `nand`, `nor` and `orc` denote
`1 AND (-2)`, `-(1 XOR 2)`, `-(1 AND 2)`, `-(1 OR 2)` and `1 OR (-2)`, each of
which differs from the value of the boolean identity with bitwise NOT
(`1`, `2^64 - 4`, `2^64 - 1`, `2^64 - 4` and `2^64 - 3`). -/
theorem derived_bitwise_at_one_two :
    (denote valuation_one_two
        (helper_sym_andc_i64 1 (some (SymExpr.input 0 64)) 2 (some (SymExpr.input 1 64)) [])
        = some 0
      ∧ 1 &&& bitNot 64 2 = 1)
    ∧ (denote valuation_one_two
        (helper_sym_eqv_i64 1 (some (SymExpr.input 0 64)) 2 (some (SymExpr.input 1 64)) [])
        = some 18446744073709551613
      ∧ bitNot 64 (1 ^^^ 2) = 18446744073709551612)
    ∧ (denote valuation_one_two
        (helper_sym_nand_i64 1 (some (SymExpr.input 0 64)) 2 (some (SymExpr.input 1 64)) [])
        = some 0
      ∧ bitNot 64 (1 &&& 2) = 18446744073709551615)
    ∧ (denote valuation_one_two
        (helper_sym_nor_i64 1 (some (SymExpr.input 0 64)) 2 (some (SymExpr.input 1 64)) [])
        = some 18446744073709551613
      ∧ bitNot 64 (1 ||| 2) = 18446744073709551612)
    ∧ (denote valuation_one_two
        (helper_sym_orc_i64 1 (some (SymExpr.input 0 64)) 2 (some (SymExpr.input 1 64)) [])
        = some 18446744073709551615
      ∧ 1 ||| bitNot 64 2 = 18446744073709551613) := by
  decide

/-- C5 (unary complement), evaluated on a 64-bit expression with the value `1`:
`helper_sym_not` returns the negate node, which denotes `-1 = 2^64 - 1`, while
the bitwise complement of `1` is `2^64 - 2`. -/
theorem sym_not_at_one :
    helper_sym_not (some (SymExpr.input 0 64)) []
      = (Outcome.ret (some (SymExpr.neg (SymExpr.input 0 64))),
         [Call.build (SymExpr.neg (SymExpr.input 0 64))])
    ∧ denote valuation_one_two (helper_sym_not (some (SymExpr.input 0 64)) [])
      = some 18446744073709551615
    ∧ bitNot 64 1 = 18446744073709551614 := by
  decide

/-- Negation modulo `m`, computed on naturals, is negation modulo `m` on
integers. -/
theorem neg_mod_int (m x : Nat) (hm : 0 < m) :
    (((m - x % m) % m : Nat) : Int) = (-(x : Int)) % (m : Int) := by
  have hr : x % m < m := Nat.mod_lt _ hm
  have hx : (x : Int) = (m : Int) * ((x / m : Nat) : Int) + ((x % m : Nat) : Int) := by
    exact_mod_cast (Nat.div_add_mod x m).symm
  have h1 : (-(x : Int))
      = (((m - x % m : Nat) : Int)) + (m : Int) * (-((x / m : Nat) : Int) - 1) := by
    rw [Nat.cast_sub hr.le]
    linear_combination -hx
  rw [h1, Int.add_mul_emod_self_left]
  simp

/-- C6 (unary negate): `helper_sym_neg` returns `NULL` for `NULL` without
calling the backend; for a present expression `e` it queries the width of
`e`, builds the constant `0` of that width and returns the subtract node with
the constant as first and `e` as second operand, which denotes `-x` modulo
`2 ^ w` for the value `x` and width `w` of `e`. -/
theorem sym_neg_correct (e : SymExpr) (t : List Call) (ν : Nat → Nat) :
    helper_sym_neg none t = (Outcome.ret none, t)
    ∧ helper_sym_neg (some e) t
      = (Outcome.ret (some (SymExpr.binary BinOp.sub (SymExpr.integer 0 (bits e)) e)),
         t ++ [Call.bits_helper e, Call.build (SymExpr.integer 0 (bits e)),
               Call.build (SymExpr.binary BinOp.sub (SymExpr.integer 0 (bits e)) e)])
    ∧ bits (SymExpr.binary BinOp.sub (SymExpr.integer 0 (bits e)) e) = bits e
    ∧ ((eval ν (SymExpr.binary BinOp.sub (SymExpr.integer 0 (bits e)) e) : Nat) : Int)
      = (-(eval ν e : Int)) % ((2 : Int) ^ bits e) := by
  refine ⟨rfl, ?_, rfl, ?_⟩
  · simp [helper_sym_neg, bind, Sym.bind, pure, Sym.pure, _sym_bits_helper, _sym_build_integer,
      _sym_build_sub, _sym_build, emit]
  · have hm : 0 < 2 ^ bits e := Nat.pos_pow_of_pos _ (by norm_num)
    have hneg := neg_mod_int (2 ^ bits e) (eval ν e) hm
    simp only [eval, evalBinOp, bits, Nat.zero_mod, Nat.zero_add]
    rw [hneg]
    norm_cast

/-- C7 (width identity): when the bit width of a present expression `e` equals
`n * 8`, `helper_sym_sext_or_trunc` and `helper_sym_zext_or_trunc` called with
target length `n` return `e` itself, and the width query is their only backend
call: no truncate, sign-extend or zero-extend node is built.  The width is a
`size_t`, hence below `2 ^ 64`. -/
theorem width_identity (e : SymExpr) (n : Nat) (t : List Call)
    (hw : bits e < 2 ^ 64) (h : bits e = n * 8) :
    helper_sym_sext_or_trunc (some e) n t = (Outcome.ret (some e), t ++ [Call.bits_helper e])
    ∧ helper_sym_zext_or_trunc (some e) n t
      = (Outcome.ret (some e), t ++ [Call.bits_helper e]) := by
  have hd : n * 8 % 2 ^ 64 = bits e := by
    rw [← h]
    exact Nat.mod_eq_of_lt hw
  constructor
  · simp only [helper_sym_sext_or_trunc]
    rw [hd]
    simp [bind, Sym.bind, pure, Sym.pure, _sym_bits_helper]
  · simp only [helper_sym_zext_or_trunc]
    rw [hd]
    simp [bind, Sym.bind, pure, Sym.pure, _sym_bits_helper]

/-- Witness for C7: a 32-bit expression and the target length 4. -/
theorem width_identity_witness :
    helper_sym_sext_or_trunc (some (SymExpr.input 0 32)) 4 []
        = (Outcome.ret (some (SymExpr.input 0 32)), [] ++ [Call.bits_helper (SymExpr.input 0 32)])
    ∧ helper_sym_zext_or_trunc (some (SymExpr.input 0 32)) 4 []
        = (Outcome.ret (some (SymExpr.input 0 32)),
           [] ++ [Call.bits_helper (SymExpr.input 0 32)]) :=
  width_identity (SymExpr.input 0 32) 4 [] (by decide) (by decide)

/-- Width adjustment on the value `d` that the C expression
`target_length * 8` has in `size_t`, which is `n * 8` modulo `2 ^ 64`: both
helpers return `e` when its width is `d`, the truncate node when it is above
`d`, and the sign-extend resp. zero-extend node when it is below `d`; neither
reaches `g_assert_not_reached()`. -/
theorem ext_or_trunc_selection_size_t (e : SymExpr) (n : Nat) (t : List Call) :
    helper_sym_sext_or_trunc (some e) n t
      = (if bits e = n * 8 % 2 ^ 64 then
          (Outcome.ret (some e), t ++ [Call.bits_helper e])
        else if bits e > n * 8 % 2 ^ 64 then
          (Outcome.ret (some (SymExpr.trunc e (n * 8 % 2 ^ 64))),
           t ++ [Call.bits_helper e, Call.build (SymExpr.trunc e (n * 8 % 2 ^ 64))])
        else
          (Outcome.ret (some (SymExpr.sext e (n * 8 % 2 ^ 64))),
           t ++ [Call.bits_helper e, Call.build (SymExpr.sext e (n * 8 % 2 ^ 64))]))
    ∧ helper_sym_zext_or_trunc (some e) n t
      = (if bits e = n * 8 % 2 ^ 64 then
          (Outcome.ret (some e), t ++ [Call.bits_helper e])
        else if bits e > n * 8 % 2 ^ 64 then
          (Outcome.ret (some (SymExpr.trunc e (n * 8 % 2 ^ 64))),
           t ++ [Call.bits_helper e, Call.build (SymExpr.trunc e (n * 8 % 2 ^ 64))])
        else
          (Outcome.ret (some (SymExpr.zext e (n * 8 % 2 ^ 64))),
           t ++ [Call.bits_helper e, Call.build (SymExpr.zext e (n * 8 % 2 ^ 64))]))
    ∧ (helper_sym_sext_or_trunc (some e) n t).1 ≠ Outcome.not_reached
    ∧ (helper_sym_zext_or_trunc (some e) n t).1 ≠ Outcome.not_reached := by
  simp only [helper_sym_sext_or_trunc, helper_sym_zext_or_trunc]
  generalize n * 8 % 2 ^ 64 = d
  rcases Nat.lt_trichotomy (bits e) d with hlt | heq | hgt
  · have h1 : ¬ bits e = d := by omega
    have h2 : ¬ d < bits e := by omega
    simp [bind, Sym.bind, pure, Sym.pure, _sym_bits_helper, _sym_build_trunc, _sym_build_sext,
      _sym_build_zext, emit, h1, h2, hlt]
  · simp [bind, Sym.bind, pure, Sym.pure, _sym_bits_helper, heq]
  · have h1 : ¬ bits e = d := by omega
    simp [bind, Sym.bind, pure, Sym.pure, _sym_bits_helper, _sym_build_trunc, _sym_build_sext,
      _sym_build_zext, emit, h1, hgt]

/-- C8 as stated fails when `n * 8` does not fit `size_t`: for a 32-bit
expression and the target length `2 ^ 61` the width `32` is below
`2 ^ 61 * 8 = 2 ^ 64`, yet `desired_bits` wraps to `0` and both helpers return
the truncate node for 0 bits instead of an extension to `2 ^ 64` bits. -/
theorem ext_or_trunc_wraps :
    bits (SymExpr.input 0 32) < 2 ^ 61 * 8
    ∧ helper_sym_sext_or_trunc (some (SymExpr.input 0 32)) (2 ^ 61) []
      = (Outcome.ret (some (SymExpr.trunc (SymExpr.input 0 32) 0)),
         [Call.bits_helper (SymExpr.input 0 32),
          Call.build (SymExpr.trunc (SymExpr.input 0 32) 0)])
    ∧ helper_sym_zext_or_trunc (some (SymExpr.input 0 32)) (2 ^ 61) []
      = (Outcome.ret (some (SymExpr.trunc (SymExpr.input 0 32) 0)),
         [Call.bits_helper (SymExpr.input 0 32),
          Call.build (SymExpr.trunc (SymExpr.input 0 32) 0)]) := by
  decide

/-- C8 (amended): for a present expression `e` of width `c` and a target length
`n` with `d = n * 8` below `2 ^ 64`: when `c = d` both helpers return `e`; when
`c > d` both return the truncate node for `(e, d)`; when `c < d` the signed
helper returns the sign-extend node and the unsigned helper the zero-extend
node for `(e, d)`; in each case the node returned is the only node built, and
neither helper reaches `g_assert_not_reached()`. -/
theorem extension_truncation_selection (e : SymExpr) (n : Nat) (t : List Call)
    (hn : n * 8 < 2 ^ 64) :
    helper_sym_sext_or_trunc (some e) n t
      = (if bits e = n * 8 then
          (Outcome.ret (some e), t ++ [Call.bits_helper e])
        else if bits e > n * 8 then
          (Outcome.ret (some (SymExpr.trunc e (n * 8))),
           t ++ [Call.bits_helper e, Call.build (SymExpr.trunc e (n * 8))])
        else
          (Outcome.ret (some (SymExpr.sext e (n * 8))),
           t ++ [Call.bits_helper e, Call.build (SymExpr.sext e (n * 8))]))
    ∧ helper_sym_zext_or_trunc (some e) n t
      = (if bits e = n * 8 then
          (Outcome.ret (some e), t ++ [Call.bits_helper e])
        else if bits e > n * 8 then
          (Outcome.ret (some (SymExpr.trunc e (n * 8))),
           t ++ [Call.bits_helper e, Call.build (SymExpr.trunc e (n * 8))])
        else
          (Outcome.ret (some (SymExpr.zext e (n * 8))),
           t ++ [Call.bits_helper e, Call.build (SymExpr.zext e (n * 8))]))
    ∧ (helper_sym_sext_or_trunc (some e) n t).1 ≠ Outcome.not_reached
    ∧ (helper_sym_zext_or_trunc (some e) n t).1 ≠ Outcome.not_reached := by
  have hsel := ext_or_trunc_selection_size_t e n t
  rw [Nat.mod_eq_of_lt hn] at hsel
  exact hsel

/-- Witness for C8 (amended): a 32-bit expression adjusted to 8 bytes is
sign-extended resp. zero-extended to 64 bits. -/
theorem extension_truncation_selection_witness :
    helper_sym_sext_or_trunc (some (SymExpr.input 0 32)) 8 []
      = (Outcome.ret (some (SymExpr.sext (SymExpr.input 0 32) 64)),
         [Call.bits_helper (SymExpr.input 0 32),
          Call.build (SymExpr.sext (SymExpr.input 0 32) 64)])
    ∧ helper_sym_zext_or_trunc (some (SymExpr.input 0 32)) 8 []
      = (Outcome.ret (some (SymExpr.zext (SymExpr.input 0 32) 64)),
         [Call.bits_helper (SymExpr.input 0 32),
          Call.build (SymExpr.zext (SymExpr.input 0 32) 64)]) :=
  ⟨(extension_truncation_selection (SymExpr.input 0 32) 8 [] (by decide)).1.trans (by decide),
   (extension_truncation_selection (SymExpr.input 0 32) 8 [] (by decide)).2.1.trans
     (by decide)⟩

/-- The C value of `ofs + len - 1` is the mathematical one when the field lies
inside a width below `2 ^ 64`. -/
theorem extract_first_bit_eq (ofs len w : Nat) (hlen : 1 ≤ len) (hrange : ofs + len ≤ w)
    (hw : w < 2 ^ 64) : extract_first_bit ofs len = ofs + len - 1 := by
  unfold extract_first_bit
  have h1 : (ofs + len) % 2 ^ 64 = ofs + len := Nat.mod_eq_of_lt (by omega)
  rw [h1]
  have h2 : ofs + len + (2 ^ 64 - 1) = (ofs + len - 1) + 2 ^ 64 := by omega
  rw [h2, Nat.add_mod_right]
  exact Nat.mod_eq_of_lt (by omega)

/-- Sign extension of a `len`-bit field `f` to `w` bits: the field itself when
its top bit is clear, otherwise the field with the bits from `len` up to `w`
set. -/
theorem ofInt_toSigned (w len f : Nat) (hle : len ≤ w) (hf : f < 2 ^ len) :
    ofInt w (toSigned len f)
      = if f < 2 ^ (len - 1) then f else f + 2 ^ w - 2 ^ len := by
  have hpow : 2 ^ len ≤ 2 ^ w := Nat.pow_le_pow_right (by norm_num) hle
  have hfm : f % 2 ^ len = f := Nat.mod_eq_of_lt hf
  unfold ofInt toSigned
  rw [hfm]
  by_cases hs : f < 2 ^ (len - 1)
  · simp only [hs, if_true]
    have hmod : ((f : Nat) : Int) % ((2 ^ w : Nat) : Int) = (f : Int) := by
      apply Int.emod_eq_of_lt
      · exact Int.ofNat_nonneg _
      · exact_mod_cast lt_of_lt_of_le hf hpow
    rw [hmod]
    simp
  · simp only [hs, if_false]
    have h0 : ((f : Int) - ((2 ^ len : Nat) : Int)) % ((2 ^ w : Nat) : Int)
        = (f : Int) - ((2 ^ len : Nat) : Int) + ((2 ^ w : Nat) : Int) := by
      rw [← Int.add_emod_self]
      apply Int.emod_eq_of_lt
      · have hp : ((2 ^ len : Nat) : Int) ≤ ((2 ^ w : Nat) : Int) := by exact_mod_cast hpow
        have hn : (0 : Int) ≤ (f : Int) := Int.ofNat_nonneg _
        omega
      · have hlt : ((f : Nat) : Int) < ((2 ^ len : Nat) : Int) := by exact_mod_cast hf
        omega
    rw [h0]
    have hcast : ((f : Int) - ((2 ^ len : Nat) : Int) + ((2 ^ w : Nat) : Int))
        = ((f + 2 ^ w - 2 ^ len : Nat) : Int) := by
      have hsub : 2 ^ len ≤ f + 2 ^ w := by omega
      rw [Nat.cast_sub hsub]
      push_cast
      ring
    rw [hcast]
    simp

/-- C9 (bit-field extract): the four extract helpers return `NULL` for `NULL`
without calling the backend.  For a present expression `e` of width `w` below
`2 ^ 64` and value `x`, and `ofs`, `len` with `1 ≤ len` and `ofs + len ≤ w`,
`helper_sym_extract_i64` returns the zero-extension to `w` of the extract of
the inclusive bit range from `ofs` to `ofs + len - 1`, of width `w` and value
`(x / 2 ^ ofs) % 2 ^ len`; `helper_sym_sextract_i64` returns the sign-extension
to `w` of the same range, of width `w`, whose value is the field when its top
bit is clear and the field with all bits from `len` up to `w` set otherwise;
the 32-bit helpers return what the 64-bit helpers return. -/
theorem bitfield_extract (e : SymExpr) (ofs len : Nat) (t : List Call) (ν : Nat → Nat)
    (hlen : 1 ≤ len) (hrange : ofs + len ≤ bits e) (hw : bits e < 2 ^ 64) :
    (helper_sym_extract_i64 none ofs len t = (Outcome.ret none, t)
      ∧ helper_sym_extract_i32 none ofs len t = (Outcome.ret none, t)
      ∧ helper_sym_sextract_i64 none ofs len t = (Outcome.ret none, t)
      ∧ helper_sym_sextract_i32 none ofs len t = (Outcome.ret none, t))
    ∧ (helper_sym_extract_i64 (some e) ofs len t
        = (Outcome.ret (some (SymExpr.zext (SymExpr.extract e (ofs + len - 1) ofs) (bits e))),
           t ++ [Call.build (SymExpr.extract e (ofs + len - 1) ofs), Call.bits_helper e,
                 Call.build (SymExpr.zext (SymExpr.extract e (ofs + len - 1) ofs) (bits e))])
      ∧ helper_sym_extract_i32 (some e) ofs len t = helper_sym_extract_i64 (some e) ofs len t
      ∧ bits (SymExpr.zext (SymExpr.extract e (ofs + len - 1) ofs) (bits e)) = bits e
      ∧ eval ν (SymExpr.zext (SymExpr.extract e (ofs + len - 1) ofs) (bits e))
        = (eval ν e / 2 ^ ofs) % 2 ^ len)
    ∧ (helper_sym_sextract_i64 (some e) ofs len t
        = (Outcome.ret (some (SymExpr.sext (SymExpr.extract e (ofs + len - 1) ofs) (bits e))),
           t ++ [Call.build (SymExpr.extract e (ofs + len - 1) ofs), Call.bits_helper e,
                 Call.build (SymExpr.sext (SymExpr.extract e (ofs + len - 1) ofs) (bits e))])
      ∧ helper_sym_sextract_i32 (some e) ofs len t = helper_sym_sextract_i64 (some e) ofs len t
      ∧ bits (SymExpr.sext (SymExpr.extract e (ofs + len - 1) ofs) (bits e)) = bits e
      ∧ eval ν (SymExpr.sext (SymExpr.extract e (ofs + len - 1) ofs) (bits e))
        = (if (eval ν e / 2 ^ ofs) % 2 ^ len < 2 ^ (len - 1) then
            (eval ν e / 2 ^ ofs) % 2 ^ len
          else (eval ν e / 2 ^ ofs) % 2 ^ len + 2 ^ bits e - 2 ^ len)) := by
  have hfirst := extract_first_bit_eq ofs len (bits e) hlen hrange hw
  have hwidth : ofs + len - 1 - ofs + 1 = len := by omega
  have hpos : 0 < 2 ^ len := Nat.pos_pow_of_pos _ (by norm_num)
  have hfield : (eval ν e / 2 ^ ofs) % 2 ^ len < 2 ^ len := Nat.mod_lt _ hpos
  refine ⟨⟨rfl, rfl, rfl, rfl⟩, ⟨?_, rfl, rfl, ?_⟩, ⟨?_, rfl, rfl, ?_⟩⟩
  · simp [helper_sym_extract_i64, bind, Sym.bind, pure, Sym.pure, _sym_bits_helper,
      _sym_extract_helper, _sym_build_zext, emit, hfirst]
  · simp only [eval, hwidth]
    apply Nat.mod_eq_of_lt
    exact lt_of_lt_of_le hfield (Nat.pow_le_pow_right (by norm_num) (by omega))
  · simp [helper_sym_sextract_i64, bind, Sym.bind, pure, Sym.pure, _sym_bits_helper,
      _sym_extract_helper, _sym_build_sext, emit, hfirst]
  · simp only [eval, bits, hwidth]
    exact ofInt_toSigned (bits e) len _ (by omega) hfield

/-- Witness for C9: the field of 8 bits at offset 4 of a 32-bit expression. -/
theorem bitfield_extract_witness :
    eval (fun _ => 0xABCD) (SymExpr.zext (SymExpr.extract (SymExpr.input 0 32) (4 + 8 - 1) 4)
        (bits (SymExpr.input 0 32)))
      = (eval (fun _ => 0xABCD) (SymExpr.input 0 32) / 2 ^ 4) % 2 ^ 8 :=
  (bitfield_extract (SymExpr.input 0 32) 4 8 [] (fun _ => 0xABCD) (by decide) (by decide)
    (by decide)).2.1.2.2.2

/-- The C value of `mask` in the deposit helpers is `2 ^ len - 1` when `len` is
below the width of its type. -/
theorem deposit_mask_eq (width len : Nat) (hlt : len < width) :
    pred_unsigned width ((1 <<< len) % 2 ^ width) = 2 ^ len - 1 := by
  have hpow : 2 ^ len < 2 ^ width := Nat.pow_lt_pow_right (by norm_num) hlt
  have hpos : 0 < 2 ^ len := Nat.pos_pow_of_pos _ (by norm_num)
  unfold pred_unsigned
  rw [Nat.one_shiftLeft, Nat.mod_mod, Nat.mod_eq_of_lt hpow]
  have h2 : 2 ^ len + (2 ^ width - 1) = (2 ^ len - 1) + 2 ^ width := by omega
  rw [h2, Nat.add_mod_right]
  exact Nat.mod_eq_of_lt (by omega)

/-- The shifted mask of a field inside the width does not wrap. -/
theorem deposit_mask_shifted_lt (width ofs len : Nat) (hrange : ofs + len ≤ width) :
    (2 ^ len - 1) * 2 ^ ofs < 2 ^ width := by
  have hpos : 0 < 2 ^ len := Nat.pos_pow_of_pos _ (by norm_num)
  have hpos2 : 0 < 2 ^ ofs := Nat.pos_pow_of_pos _ (by norm_num)
  have h1 : (2 ^ len - 1) * 2 ^ ofs < 2 ^ len * 2 ^ ofs :=
    Nat.mul_lt_mul_of_pos_right (by omega) hpos2
  have h2 : 2 ^ len * 2 ^ ofs = 2 ^ (len + ofs) := (Nat.pow_add 2 len ofs).symm
  have h3 : 2 ^ (len + ofs) ≤ 2 ^ width := Nat.pow_le_pow_right (by norm_num) (by omega)
  omega

/-- Deposit below the full width: for `1 ≤ len < width` and
`ofs + len ≤ width` the deposit body returns the deposit formula on the two
operands after materialization. -/
theorem deposit_body_returns (width arg1 arg2 : Nat) (a b : SymExpr) (ofs len : Nat)
    (t : List Call) (hlen : 1 ≤ len) (hrange : ofs + len ≤ width) (hlt : len < width) :
    (deposit_body width arg1 (some a) arg2 (some b) ofs len t).1
        = Outcome.ret (some (deposit_formula width a b ofs len))
    ∧ (deposit_body width arg1 (some a) arg2 none ofs len t).1
        = Outcome.ret (some (deposit_formula width a (SymExpr.integer arg2 (bits a)) ofs len))
    ∧ (deposit_body width arg1 none arg2 (some b) ofs len t).1
        = Outcome.ret (some (deposit_formula width (SymExpr.integer arg1 (bits b)) b ofs len)) := by
  have hofs : ofs < width := by omega
  have hmask := deposit_mask_eq width len hlt
  have hsh : ((2 ^ len - 1) <<< ofs) % 2 ^ width = (2 ^ len - 1) * 2 ^ ofs := by
    rw [Nat.shiftLeft_eq]
    exact Nat.mod_eq_of_lt (deposit_mask_shifted_lt width ofs len hrange)
  have hc : complement_unsigned width ((2 ^ len - 1) * 2 ^ ofs)
      = 2 ^ width - 1 - (2 ^ len - 1) * 2 ^ ofs := by
    unfold complement_unsigned
    rw [Nat.mod_eq_of_lt (deposit_mask_shifted_lt width ofs len hrange)]
  refine ⟨?_, ?_, ?_⟩ <;>
  simp only [deposit_body, BINARY_HELPER_ENSURE_EXPRESSIONS, shift_left_unsigned, bind, Sym.bind,
    pure, Sym.pure, hlt, hofs, if_true, hmask, hsh, hc, _sym_bits_helper, _sym_build_integer,
    _sym_build_and, _sym_build_or, _sym_build_shift_left, _sym_build, emit, deposit_formula]

/-- Meaning of the deposit formula on operands of width `width`: bit `i` of the
result is bit `i - ofs` of `b` inside the field, bit `i` of `a` elsewhere below
`width`, and clear from `width` on. -/
theorem deposit_formula_testBit (width : Nat) (a b : SymExpr) (ofs len : Nat) (ν : Nat → Nat)
    (ha : bits a = width) (hb : bits b = width) (hrange : ofs + len ≤ width) (i : Nat) :
    (eval ν (deposit_formula width a b ofs len)).testBit i
      = if i < width then
          (if ofs ≤ i ∧ i < ofs + len then (eval ν b).testBit (i - ofs)
           else (eval ν a).testBit i)
        else false := by
  have hm := deposit_mask_shifted_lt width ofs len hrange
  have hofs : ofs % 2 ^ width = ofs :=
    Nat.mod_eq_of_lt (lt_of_le_of_lt (by omega : ofs ≤ width) (Nat.lt_two_pow width))
  have hc1 : 2 ^ width - 1 - (2 ^ len - 1) * 2 ^ ofs
      = 2 ^ width - ((2 ^ len - 1) <<< ofs + 1) := by
    rw [Nat.shiftLeft_eq]
    omega
  have hm2 : (2 ^ len - 1) <<< ofs < 2 ^ width := by
    rw [Nat.shiftLeft_eq]
    exact hm
  simp only [deposit_formula, eval, evalBinOp, bits, ha, hb, hofs, hc1,
    Nat.testBit_mod_two_pow, Nat.testBit_or, Nat.testBit_and, Nat.testBit_shiftLeft,
    Nat.testBit_two_pow_sub_succ hm2, Nat.testBit_two_pow_sub_one]
  by_cases h1 : i < width
  · by_cases h2 : ofs ≤ i
    · by_cases h3 : i < ofs + len
      · have h4 : i - ofs < len := by omega
        have h5 : i - ofs < width := by omega
        simp [h1, h2, h3, h4, h5]
      · have h4 : ¬ i - ofs < len := by omega
        simp [h1, h2, h3, h4]
    · simp [h1, h2]
  · simp [h1]

/-- The deposit example of the specification: with `arg1 = 0xFFFFFFFF` symbolic,
`arg2 = 0` concrete, `ofs = 4` and `len = 4`, the expression returned by
`helper_sym_deposit_i32` denotes `0xFFFFFF0F`. -/
theorem deposit_example :
    denote (fun _ => 0xFFFFFFFF)
      (helper_sym_deposit_i32 0xFFFFFFFF (some (SymExpr.input 0 32)) 0 none 4 4 [])
      = some 0xFFFFFF0F := by
  decide

/-- C10 (deposit), evaluated at the full width: with `ofs = 0` and `len = 32`
`helper_sym_deposit_i32` reaches `1u << 32`, and with `ofs = 0` and `len = 64`
`helper_sym_deposit_i64` reaches `1ull << 64`; both shifts are by the width of
their type, so the helpers have no defined result there, and no deposit
expression is built. -/
theorem deposit_at_full_width :
    helper_sym_deposit_i32 0xFFFFFFFF (some (SymExpr.input 0 32)) 0 none 0 32 []
      = (Outcome.undefined,
         [Call.bits_helper (SymExpr.input 0 32), Call.build (SymExpr.integer 0 32)])
    ∧ helper_sym_deposit_i64 0xFFFFFFFFFFFFFFFF (some (SymExpr.input 0 64)) 0
        (some (SymExpr.input 1 64)) 0 64 []
      = (Outcome.undefined, []) := by
  decide

/-- The `switch` of `sym_setcond_internal` on each of its ten `case` labels,
the labels being pairwise distinct. -/
theorem setcond_handler_table (codes : TCGCond) (hd : TCGCond.distinct codes) :
    setcond_handler codes codes.TCG_COND_EQ = some CmpOp.equal
    ∧ setcond_handler codes codes.TCG_COND_NE = some CmpOp.not_equal
    ∧ setcond_handler codes codes.TCG_COND_LT = some CmpOp.signed_less_than
    ∧ setcond_handler codes codes.TCG_COND_GE = some CmpOp.signed_greater_equal
    ∧ setcond_handler codes codes.TCG_COND_LE = some CmpOp.signed_less_equal
    ∧ setcond_handler codes codes.TCG_COND_GT = some CmpOp.signed_greater_than
    ∧ setcond_handler codes codes.TCG_COND_LTU = some CmpOp.unsigned_less_than
    ∧ setcond_handler codes codes.TCG_COND_GEU = some CmpOp.unsigned_greater_equal
    ∧ setcond_handler codes codes.TCG_COND_LEU = some CmpOp.unsigned_less_equal
    ∧ setcond_handler codes codes.TCG_COND_GTU = some CmpOp.unsigned_greater_than := by
  simp only [TCGCond.distinct, TCGCond.values, List.nodup_cons, List.mem_cons, List.mem_singleton,
    List.not_mem_nil, not_or, List.nodup_nil, or_false, and_true, not_false_eq_true] at hd
  obtain ⟨⟨h01, h02, h03, h04, h05, h06, h07, h08, h09⟩,
    ⟨h12, h13, h14, h15, h16, h17, h18, h19⟩,
    ⟨h23, h24, h25, h26, h27, h28, h29⟩,
    ⟨h34, h35, h36, h37, h38, h39⟩,
    ⟨h45, h46, h47, h48, h49⟩,
    ⟨h56, h57, h58, h59⟩,
    ⟨h67, h68, h69⟩,
    ⟨h78, h79⟩,
    h89⟩ := hd
  unfold setcond_handler
  refine ⟨?_, ?_, ?_, ?_, ?_, ?_, ?_, ?_, ?_, ?_⟩
  · rw [if_pos rfl]
  · rw [if_neg (Ne.symm h01), if_pos rfl]
  · rw [if_neg (Ne.symm h02), if_neg (Ne.symm h12), if_pos rfl]
  · rw [if_neg (Ne.symm h03), if_neg (Ne.symm h13), if_neg (Ne.symm h23), if_pos rfl]
  · rw [if_neg (Ne.symm h04), if_neg (Ne.symm h14), if_neg (Ne.symm h24), if_neg (Ne.symm h34),
      if_pos rfl]
  · rw [if_neg (Ne.symm h05), if_neg (Ne.symm h15), if_neg (Ne.symm h25), if_neg (Ne.symm h35),
      if_neg (Ne.symm h45), if_pos rfl]
  · rw [if_neg (Ne.symm h06), if_neg (Ne.symm h16), if_neg (Ne.symm h26), if_neg (Ne.symm h36),
      if_neg (Ne.symm h46), if_neg (Ne.symm h56), if_pos rfl]
  · rw [if_neg (Ne.symm h07), if_neg (Ne.symm h17), if_neg (Ne.symm h27), if_neg (Ne.symm h37),
      if_neg (Ne.symm h47), if_neg (Ne.symm h57), if_neg (Ne.symm h67), if_pos rfl]
  · rw [if_neg (Ne.symm h08), if_neg (Ne.symm h18), if_neg (Ne.symm h28), if_neg (Ne.symm h38),
      if_neg (Ne.symm h48), if_neg (Ne.symm h58), if_neg (Ne.symm h68), if_neg (Ne.symm h78),
      if_pos rfl]
  · rw [if_neg (Ne.symm h09), if_neg (Ne.symm h19), if_neg (Ne.symm h29), if_neg (Ne.symm h39),
      if_neg (Ne.symm h49), if_neg (Ne.symm h59), if_neg (Ne.symm h69), if_neg (Ne.symm h79),
      if_neg (Ne.symm h89), if_pos rfl]

/-- On a code that the `switch` maps to the builder `op`, `sym_setcond_internal`
with at least one present expression builds the comparison `op` on the two
operands after materialization, submits it with the concrete result and the
site `42`, and returns its conversion to `result_bits` bits. -/
theorem setcond_internal_valid (codes : TCGCond) (cond : Int) (op : CmpOp)
    (hv : setcond_handler codes cond = some op) (arg1 arg2 result result_bits : Nat)
    (e1 e2 : SymExpr) (t : List Call) :
    sym_setcond_internal codes arg1 (some e1) arg2 (some e2) cond result result_bits t
      = (Outcome.ret (some (SymExpr.bool_to_bits (SymExpr.compare op e1 e2) result_bits)),
         t ++ [Call.build (SymExpr.compare op e1 e2),
               Call.push_path_constraint (SymExpr.compare op e1 e2) result 42,
               Call.build (SymExpr.bool_to_bits (SymExpr.compare op e1 e2) result_bits)])
    ∧ sym_setcond_internal codes arg1 (some e1) arg2 none cond result result_bits t
      = (Outcome.ret (some (SymExpr.bool_to_bits
            (SymExpr.compare op e1 (SymExpr.integer arg2 (bits e1))) result_bits)),
         t ++ [Call.bits_helper e1, Call.build (SymExpr.integer arg2 (bits e1)),
               Call.build (SymExpr.compare op e1 (SymExpr.integer arg2 (bits e1))),
               Call.push_path_constraint
                 (SymExpr.compare op e1 (SymExpr.integer arg2 (bits e1))) result 42,
               Call.build (SymExpr.bool_to_bits
                 (SymExpr.compare op e1 (SymExpr.integer arg2 (bits e1))) result_bits)])
    ∧ sym_setcond_internal codes arg1 none arg2 (some e2) cond result result_bits t
      = (Outcome.ret (some (SymExpr.bool_to_bits
            (SymExpr.compare op (SymExpr.integer arg1 (bits e2)) e2) result_bits)),
         t ++ [Call.bits_helper e2, Call.build (SymExpr.integer arg1 (bits e2)),
               Call.build (SymExpr.compare op (SymExpr.integer arg1 (bits e2)) e2),
               Call.push_path_constraint
                 (SymExpr.compare op (SymExpr.integer arg1 (bits e2)) e2) result 42,
               Call.build (SymExpr.bool_to_bits
                 (SymExpr.compare op (SymExpr.integer arg1 (bits e2)) e2) result_bits)]) := by
  refine ⟨?_, ?_, ?_⟩ <;>
  simp [sym_setcond_internal, hv, BINARY_HELPER_ENSURE_EXPRESSIONS, bind, Sym.bind, pure,
    Sym.pure, _sym_bits_helper, _sym_build_integer, _sym_build_compare,
    _sym_push_path_constraint, _sym_build_bool_to_bits, emit]

/-- The `switch` of `sym_setcond_internal` either takes the `default:` label, on
a code that is none of the ten `case` labels, or assigns a builder under the
label of that builder. -/
theorem setcond_handler_cases (codes : TCGCond) (cond : Int) :
    (setcond_handler codes cond = none ∧ cond ∉ TCGCond.values codes)
    ∨ ∃ op : CmpOp, setcond_handler codes cond = some op ∧ cond = TCGCond.label codes op := by
  unfold setcond_handler
  by_cases h0 : cond = codes.TCG_COND_EQ
  · right
    refine ⟨CmpOp.equal, ?_, h0⟩
    rw [if_pos h0]
  by_cases h1 : cond = codes.TCG_COND_NE
  · right
    refine ⟨CmpOp.not_equal, ?_, h1⟩
    rw [if_neg h0, if_pos h1]
  by_cases h2 : cond = codes.TCG_COND_LT
  · right
    refine ⟨CmpOp.signed_less_than, ?_, h2⟩
    rw [if_neg h0, if_neg h1, if_pos h2]
  by_cases h3 : cond = codes.TCG_COND_GE
  · right
    refine ⟨CmpOp.signed_greater_equal, ?_, h3⟩
    rw [if_neg h0, if_neg h1, if_neg h2, if_pos h3]
  by_cases h4 : cond = codes.TCG_COND_LE
  · right
    refine ⟨CmpOp.signed_less_equal, ?_, h4⟩
    rw [if_neg h0, if_neg h1, if_neg h2, if_neg h3, if_pos h4]
  by_cases h5 : cond = codes.TCG_COND_GT
  · right
    refine ⟨CmpOp.signed_greater_than, ?_, h5⟩
    rw [if_neg h0, if_neg h1, if_neg h2, if_neg h3, if_neg h4, if_pos h5]
  by_cases h6 : cond = codes.TCG_COND_LTU
  · right
    refine ⟨CmpOp.unsigned_less_than, ?_, h6⟩
    rw [if_neg h0, if_neg h1, if_neg h2, if_neg h3, if_neg h4, if_neg h5, if_pos h6]
  by_cases h7 : cond = codes.TCG_COND_GEU
  · right
    refine ⟨CmpOp.unsigned_greater_equal, ?_, h7⟩
    rw [if_neg h0, if_neg h1, if_neg h2, if_neg h3, if_neg h4, if_neg h5, if_neg h6, if_pos h7]
  by_cases h8 : cond = codes.TCG_COND_LEU
  · right
    refine ⟨CmpOp.unsigned_less_equal, ?_, h8⟩
    rw [if_neg h0, if_neg h1, if_neg h2, if_neg h3, if_neg h4, if_neg h5, if_neg h6, if_neg h7,
      if_pos h8]
  by_cases h9 : cond = codes.TCG_COND_GTU
  · right
    refine ⟨CmpOp.unsigned_greater_than, ?_, h9⟩
    rw [if_neg h0, if_neg h1, if_neg h2, if_neg h3, if_neg h4, if_neg h5, if_neg h6, if_neg h7,
      if_neg h8, if_pos h9]
  left
  refine ⟨?_, ?_⟩
  · rw [if_neg h0, if_neg h1, if_neg h2, if_neg h3, if_neg h4, if_neg h5, if_neg h6, if_neg h7,
      if_neg h8, if_neg h9]
  · simp only [TCGCond.values, List.mem_cons, List.mem_singleton, List.not_mem_nil,
      or_false, not_or]
    exact ⟨h0, h1, h2, h3, h4, h5, h6, h7, h8, h9⟩

/-- The label of every builder is one of the ten `case` labels. -/
theorem label_mem_values (codes : TCGCond) (op : CmpOp) :
    TCGCond.label codes op ∈ TCGCond.values codes := by
  cases op <;> simp [TCGCond.label, TCGCond.values]

/-- The `switch` takes the `default:` label exactly on the codes that are none
of the ten `case` labels. -/
theorem setcond_handler_none_iff (codes : TCGCond) (cond : Int) :
    setcond_handler codes cond = none ↔ cond ∉ TCGCond.values codes := by
  rcases setcond_handler_cases codes cond with ⟨hn, hnot⟩ | ⟨op, hop, hlab⟩
  · exact ⟨fun _ => hnot, fun _ => hn⟩
  · constructor
    · intro hn
      rw [hop] at hn
      exact absurd hn (by simp)
    · intro hnot
      exact absurd (hlab ▸ label_mem_values codes op) hnot

/-- A builder assigned by the `switch` was assigned under its own label. -/
theorem setcond_handler_label (codes : TCGCond) (cond : Int) (op : CmpOp)
    (hv : setcond_handler codes cond = some op) : cond = TCGCond.label codes op := by
  rcases setcond_handler_cases codes cond with ⟨hn, _⟩ | ⟨op2, hop, hlab⟩
  · rw [hn] at hv
    exact absurd hv (by simp)
  · rw [hop] at hv
    cases hv
    exact hlab

/-- C11 (condition-code mapping): the ten `case` labels being pairwise
distinct, each code of the table below selects the comparison builder listed
with it; with at least one present expression `sym_setcond_internal` (the body
of both entry points) then returns normally, and its only comparison call is
that builder on `(arg1_expr, arg2_expr)` after materialization; another of the
ten codes never selects the same builder. -/
theorem setcond_dispatch (codes : TCGCond) (hd : TCGCond.distinct codes) (cond : Int)
    (op : CmpOp)
    (hp : (cond, op) ∈
      [(codes.TCG_COND_EQ, CmpOp.equal), (codes.TCG_COND_NE, CmpOp.not_equal),
       (codes.TCG_COND_LT, CmpOp.signed_less_than),
       (codes.TCG_COND_GE, CmpOp.signed_greater_equal),
       (codes.TCG_COND_LE, CmpOp.signed_less_equal),
       (codes.TCG_COND_GT, CmpOp.signed_greater_than),
       (codes.TCG_COND_LTU, CmpOp.unsigned_less_than),
       (codes.TCG_COND_GEU, CmpOp.unsigned_greater_equal),
       (codes.TCG_COND_LEU, CmpOp.unsigned_less_equal),
       (codes.TCG_COND_GTU, CmpOp.unsigned_greater_than)])
    (arg1 arg2 result result_bits : Nat) (e1 e2 : SymExpr) (t : List Call) :
    setcond_handler codes cond = some op
    ∧ sym_setcond_internal codes arg1 (some e1) arg2 (some e2) cond result result_bits t
      = (Outcome.ret (some (SymExpr.bool_to_bits (SymExpr.compare op e1 e2) result_bits)),
         t ++ [Call.build (SymExpr.compare op e1 e2),
               Call.push_path_constraint (SymExpr.compare op e1 e2) result 42,
               Call.build (SymExpr.bool_to_bits (SymExpr.compare op e1 e2) result_bits)])
    ∧ sym_setcond_internal codes arg1 (some e1) arg2 none cond result result_bits t
      = (Outcome.ret (some (SymExpr.bool_to_bits
            (SymExpr.compare op e1 (SymExpr.integer arg2 (bits e1))) result_bits)),
         t ++ [Call.bits_helper e1, Call.build (SymExpr.integer arg2 (bits e1)),
               Call.build (SymExpr.compare op e1 (SymExpr.integer arg2 (bits e1))),
               Call.push_path_constraint
                 (SymExpr.compare op e1 (SymExpr.integer arg2 (bits e1))) result 42,
               Call.build (SymExpr.bool_to_bits
                 (SymExpr.compare op e1 (SymExpr.integer arg2 (bits e1))) result_bits)])
    ∧ sym_setcond_internal codes arg1 none arg2 (some e2) cond result result_bits t
      = (Outcome.ret (some (SymExpr.bool_to_bits
            (SymExpr.compare op (SymExpr.integer arg1 (bits e2)) e2) result_bits)),
         t ++ [Call.bits_helper e2, Call.build (SymExpr.integer arg1 (bits e2)),
               Call.build (SymExpr.compare op (SymExpr.integer arg1 (bits e2)) e2),
               Call.push_path_constraint
                 (SymExpr.compare op (SymExpr.integer arg1 (bits e2)) e2) result 42,
               Call.build (SymExpr.bool_to_bits
                 (SymExpr.compare op (SymExpr.integer arg1 (bits e2)) e2) result_bits)])
    ∧ (∀ other : Int, other ∈ TCGCond.values codes → other ≠ cond →
        setcond_handler codes other ≠ some op) := by
  have htab := setcond_handler_table codes hd
  have hv : setcond_handler codes cond = some op := by
    simp only [List.mem_cons, List.mem_singleton, List.not_mem_nil, or_false,
      Prod.mk.injEq] at hp
    repeat
      rcases hp with ⟨rfl, rfl⟩ | hp
      · first
          | exact htab.1
          | exact htab.2.1
          | exact htab.2.2.1
          | exact htab.2.2.2.1
          | exact htab.2.2.2.2.1
          | exact htab.2.2.2.2.2.1
          | exact htab.2.2.2.2.2.2.1
          | exact htab.2.2.2.2.2.2.2.1
          | exact htab.2.2.2.2.2.2.2.2.1
    obtain ⟨rfl, rfl⟩ := hp
    exact htab.2.2.2.2.2.2.2.2.2
  obtain ⟨h1, h2, h3⟩ :=
    setcond_internal_valid codes cond op hv arg1 arg2 result result_bits e1 e2 t
  refine ⟨hv, h1, h2, h3, ?_⟩
  intro other _ hne hother
  exact hne ((setcond_handler_label codes other op hother).trans
    (setcond_handler_label codes cond op hv).symm)

/-- Witness for C11: with QEMU's numbering, code `2` selects the signed
less-than builder. -/
theorem setcond_dispatch_witness :
    setcond_handler example_codes 2 = some CmpOp.signed_less_than :=
  (setcond_dispatch example_codes (by unfold TCGCond.distinct; decide) 2 CmpOp.signed_less_than
    (by simp [example_codes]) 0 0 0 32 (SymExpr.input 0 32) (SymExpr.input 1 32) []).1

/-- C12 as stated fails when both expressions are `NULL`: with QEMU's
numbering the code `0` is none of the ten `case` labels, yet both entry points
return `NULL` normally instead of reaching `g_assert_not_reached()`. -/
theorem setcond_unmapped_both_absent :
    (0 : Int) ∉ TCGCond.values example_codes
    ∧ helper_sym_setcond_i32 example_codes 5 none 5 none 0 1 [] = (Outcome.ret none, [])
    ∧ helper_sym_setcond_i64 example_codes 5 none 5 none 0 1 [] = (Outcome.ret none, []) := by
  decide

/-- C12 (amended): on a code that is none of the ten `case` labels, both entry
points end in `g_assert_not_reached()` whenever at least one expression is
present, having made no backend call beyond the width query and the constant
of the materialization, hence without a path constraint; when both expressions
are `NULL` they return `NULL` before the `switch` and call nothing. -/
theorem setcond_unmapped (codes : TCGCond) (cond : Int) (hc : cond ∉ TCGCond.values codes)
    (arg1 arg2 result : Nat) (e1 e2 : SymExpr) (t : List Call) :
    (helper_sym_setcond_i32 codes arg1 (some e1) arg2 (some e2) cond result t
        = (Outcome.not_reached, t)
      ∧ helper_sym_setcond_i32 codes arg1 (some e1) arg2 none cond result t
        = (Outcome.not_reached,
           t ++ [Call.bits_helper e1, Call.build (SymExpr.integer arg2 (bits e1))])
      ∧ helper_sym_setcond_i32 codes arg1 none arg2 (some e2) cond result t
        = (Outcome.not_reached,
           t ++ [Call.bits_helper e2, Call.build (SymExpr.integer arg1 (bits e2))])
      ∧ helper_sym_setcond_i32 codes arg1 none arg2 none cond result t = (Outcome.ret none, t))
    ∧ (helper_sym_setcond_i64 codes arg1 (some e1) arg2 (some e2) cond result t
        = (Outcome.not_reached, t)
      ∧ helper_sym_setcond_i64 codes arg1 (some e1) arg2 none cond result t
        = (Outcome.not_reached,
           t ++ [Call.bits_helper e1, Call.build (SymExpr.integer arg2 (bits e1))])
      ∧ helper_sym_setcond_i64 codes arg1 none arg2 (some e2) cond result t
        = (Outcome.not_reached,
           t ++ [Call.bits_helper e2, Call.build (SymExpr.integer arg1 (bits e2))])
      ∧ helper_sym_setcond_i64 codes arg1 none arg2 none cond result t = (Outcome.ret none, t)) := by
  have hn : setcond_handler codes cond = none := (setcond_handler_none_iff codes cond).2 hc
  refine ⟨⟨?_, ?_, ?_, rfl⟩, ⟨?_, ?_, ?_, rfl⟩⟩ <;>
  simp [helper_sym_setcond_i32, helper_sym_setcond_i64, sym_setcond_internal, hn,
    BINARY_HELPER_ENSURE_EXPRESSIONS, bind, Sym.bind, pure, Sym.pure, _sym_bits_helper,
    _sym_build_integer, emit, g_assert_not_reached]

/-- Witness for C12 (amended): the code `0` with a present first operand. -/
theorem setcond_unmapped_witness :
    helper_sym_setcond_i32 example_codes 5 (some (SymExpr.input 0 32)) 5 none 0 1 []
      = (Outcome.not_reached,
         [] ++ [Call.bits_helper (SymExpr.input 0 32), Call.build (SymExpr.integer 5 32)]) :=
  (setcond_unmapped example_codes 0 (by decide) 5 5 1 (SymExpr.input 0 32) (SymExpr.input 1 32)
    []).1.2.1

/-- C13 (path constraint and result shape): on a code that the `switch` maps
to the builder `op`, and with at least one present expression, each entry
point builds the comparison `op` on the operands after materialization,
submits exactly one path constraint, made of that comparison and the caller's
concrete result, and returns the conversion of that same comparison to 32 bits
(`helper_sym_setcond_i32`) or 64 bits (`helper_sym_setcond_i64`); both entry
points are `sym_setcond_internal` and differ in this width only. -/
theorem setcond_path_constraint (codes : TCGCond) (cond : Int) (op : CmpOp)
    (hv : setcond_handler codes cond = some op) (arg1 arg2 result : Nat)
    (e1 e2 : SymExpr) (x1 x2 : Option SymExpr) (t : List Call) :
    (helper_sym_setcond_i32 codes arg1 (some e1) arg2 (some e2) cond result t
        = (Outcome.ret (some (SymExpr.bool_to_bits (SymExpr.compare op e1 e2) 32)),
           t ++ [Call.build (SymExpr.compare op e1 e2),
                 Call.push_path_constraint (SymExpr.compare op e1 e2) result 42,
                 Call.build (SymExpr.bool_to_bits (SymExpr.compare op e1 e2) 32)])
      ∧ helper_sym_setcond_i32 codes arg1 (some e1) arg2 none cond result t
        = (Outcome.ret (some (SymExpr.bool_to_bits
              (SymExpr.compare op e1 (SymExpr.integer arg2 (bits e1))) 32)),
           t ++ [Call.bits_helper e1, Call.build (SymExpr.integer arg2 (bits e1)),
                 Call.build (SymExpr.compare op e1 (SymExpr.integer arg2 (bits e1))),
                 Call.push_path_constraint
                   (SymExpr.compare op e1 (SymExpr.integer arg2 (bits e1))) result 42,
                 Call.build (SymExpr.bool_to_bits
                   (SymExpr.compare op e1 (SymExpr.integer arg2 (bits e1))) 32)])
      ∧ helper_sym_setcond_i32 codes arg1 none arg2 (some e2) cond result t
        = (Outcome.ret (some (SymExpr.bool_to_bits
              (SymExpr.compare op (SymExpr.integer arg1 (bits e2)) e2) 32)),
           t ++ [Call.bits_helper e2, Call.build (SymExpr.integer arg1 (bits e2)),
                 Call.build (SymExpr.compare op (SymExpr.integer arg1 (bits e2)) e2),
                 Call.push_path_constraint
                   (SymExpr.compare op (SymExpr.integer arg1 (bits e2)) e2) result 42,
                 Call.build (SymExpr.bool_to_bits
                   (SymExpr.compare op (SymExpr.integer arg1 (bits e2)) e2) 32)]))
    ∧ (helper_sym_setcond_i64 codes arg1 (some e1) arg2 (some e2) cond result t
        = (Outcome.ret (some (SymExpr.bool_to_bits (SymExpr.compare op e1 e2) 64)),
           t ++ [Call.build (SymExpr.compare op e1 e2),
                 Call.push_path_constraint (SymExpr.compare op e1 e2) result 42,
                 Call.build (SymExpr.bool_to_bits (SymExpr.compare op e1 e2) 64)])
      ∧ helper_sym_setcond_i64 codes arg1 (some e1) arg2 none cond result t
        = (Outcome.ret (some (SymExpr.bool_to_bits
              (SymExpr.compare op e1 (SymExpr.integer arg2 (bits e1))) 64)),
           t ++ [Call.bits_helper e1, Call.build (SymExpr.integer arg2 (bits e1)),
                 Call.build (SymExpr.compare op e1 (SymExpr.integer arg2 (bits e1))),
                 Call.push_path_constraint
                   (SymExpr.compare op e1 (SymExpr.integer arg2 (bits e1))) result 42,
                 Call.build (SymExpr.bool_to_bits
                   (SymExpr.compare op e1 (SymExpr.integer arg2 (bits e1))) 64)])
      ∧ helper_sym_setcond_i64 codes arg1 none arg2 (some e2) cond result t
        = (Outcome.ret (some (SymExpr.bool_to_bits
              (SymExpr.compare op (SymExpr.integer arg1 (bits e2)) e2) 64)),
           t ++ [Call.bits_helper e2, Call.build (SymExpr.integer arg1 (bits e2)),
                 Call.build (SymExpr.compare op (SymExpr.integer arg1 (bits e2)) e2),
                 Call.push_path_constraint
                   (SymExpr.compare op (SymExpr.integer arg1 (bits e2)) e2) result 42,
                 Call.build (SymExpr.bool_to_bits
                   (SymExpr.compare op (SymExpr.integer arg1 (bits e2)) e2) 64)]))
    ∧ helper_sym_setcond_i32 codes arg1 x1 arg2 x2 cond result
        = sym_setcond_internal codes arg1 x1 arg2 x2 cond result 32
    ∧ helper_sym_setcond_i64 codes arg1 x1 arg2 x2 cond result
        = sym_setcond_internal codes arg1 x1 arg2 x2 cond result 64 := by
  exact ⟨setcond_internal_valid codes cond op hv arg1 arg2 result 32 e1 e2 t,
    setcond_internal_valid codes cond op hv arg1 arg2 result 64 e1 e2 t, rfl, rfl⟩

/-- Witness for C13: the code of `TCG_COND_EQ` in QEMU's numbering, both
operands symbolic, concrete result `1`. -/
theorem setcond_path_constraint_witness :
    helper_sym_setcond_i32 example_codes 5 (some (SymExpr.input 0 32)) 5
        (some (SymExpr.input 1 32)) 8 1 []
      = (Outcome.ret (some (SymExpr.bool_to_bits
            (SymExpr.compare CmpOp.equal (SymExpr.input 0 32) (SymExpr.input 1 32)) 32)),
         [] ++ [Call.build
                  (SymExpr.compare CmpOp.equal (SymExpr.input 0 32) (SymExpr.input 1 32)),
                Call.push_path_constraint
                  (SymExpr.compare CmpOp.equal (SymExpr.input 0 32) (SymExpr.input 1 32)) 1 42,
                Call.build (SymExpr.bool_to_bits
                  (SymExpr.compare CmpOp.equal (SymExpr.input 0 32) (SymExpr.input 1 32))
                  32)]) :=
  (setcond_path_constraint example_codes 8 CmpOp.equal (by decide) 5 5 1 (SymExpr.input 0 32)
    (SymExpr.input 1 32) none none []).1.1

/-- The signed reading depends on the low `w` bits only. -/
theorem toSigned_mod (w x : Nat) : toSigned w (x % 2 ^ w) = toSigned w x := by
  unfold toSigned
  rw [Nat.mod_mod]

/-- A comparison at width `w` depends on the low `w` bits of its operands
only. -/
theorem evalCmpOp_mod (op : CmpOp) (w a b : Nat) :
    evalCmpOp op w (a % 2 ^ w) b = evalCmpOp op w a b
    ∧ evalCmpOp op w a (b % 2 ^ w) = evalCmpOp op w a b := by
  cases op <;> simp [evalCmpOp, toSigned_mod, Nat.mod_mod]

/-- The conversion of a comparison to `result_bits ≥ 1` bits denotes `1` when
the comparison holds and `0` otherwise. -/
theorem eval_bool_to_bits_compare (ν : Nat → Nat) (op : CmpOp) (a b : SymExpr)
    (result_bits : Nat) (hr : 1 ≤ result_bits) :
    eval ν (SymExpr.bool_to_bits (SymExpr.compare op a b) result_bits)
      = if evalCmpOp op (bits a) (eval ν a) (eval ν b) then 1 else 0 := by
  have hlt : 1 < 2 ^ result_bits := Nat.one_lt_two_pow (by omega)
  simp only [eval]
  by_cases hc : evalCmpOp op (bits a) (eval ν a) (eval ν b) = true
  · simp [hc, Nat.mod_eq_of_lt hlt]
  · simp [hc]

/-- On a code that the `switch` maps to the builder `op`, for the entry point
of width `w`, present operand expressions of width `w` and a valuation under
which each present expression has the value of its concrete operand, the
expression returned denotes `1` when the comparison builder `op` holds at width
`w` between the concrete operands and `0` otherwise. -/
theorem setcond_denotes_handler (codes : TCGCond) (cond : Int) (op : CmpOp)
    (hv : setcond_handler codes cond = some op) (w : Nat)
    (entry : Nat → Option SymExpr → Nat → Option SymExpr → Int → Nat → Sym (Option SymExpr))
    (hentry : (w, entry) ∈
      [(32, helper_sym_setcond_i32 codes), (64, helper_sym_setcond_i64 codes)])
    (ν : Nat → Nat) (arg1 arg2 result : Nat) (e1 e2 : SymExpr)
    (hw1 : bits e1 = w) (hw2 : bits e2 = w)
    (hv1 : eval ν e1 = arg1) (hv2 : eval ν e2 = arg2) (t : List Call) :
    denote ν (entry arg1 (some e1) arg2 (some e2) cond result t)
      = some (if evalCmpOp op w arg1 arg2 then 1 else 0)
    ∧ denote ν (entry arg1 (some e1) arg2 none cond result t)
      = some (if evalCmpOp op w arg1 arg2 then 1 else 0)
    ∧ denote ν (entry arg1 none arg2 (some e2) cond result t)
      = some (if evalCmpOp op w arg1 arg2 then 1 else 0) := by
  have key : ∀ result_bits : Nat, 1 ≤ result_bits →
      denote ν (sym_setcond_internal codes arg1 (some e1) arg2 (some e2) cond result
          result_bits t)
        = some (if evalCmpOp op w arg1 arg2 then 1 else 0)
      ∧ denote ν (sym_setcond_internal codes arg1 (some e1) arg2 none cond result
          result_bits t)
        = some (if evalCmpOp op w arg1 arg2 then 1 else 0)
      ∧ denote ν (sym_setcond_internal codes arg1 none arg2 (some e2) cond result
          result_bits t)
        = some (if evalCmpOp op w arg1 arg2 then 1 else 0) := by
    intro result_bits hr
    obtain ⟨h1, h2, h3⟩ :=
      setcond_internal_valid codes cond op hv arg1 arg2 result result_bits e1 e2 t
    refine ⟨?_, ?_, ?_⟩
    · rw [h1]
      simp only [denote]
      rw [eval_bool_to_bits_compare ν op e1 e2 result_bits hr, hw1, hv1, hv2]
    · rw [h2]
      simp only [denote]
      rw [eval_bool_to_bits_compare ν op _ _ result_bits hr, hw1, hv1]
      simp only [eval, (evalCmpOp_mod op w arg1 arg2).2]
    · rw [h3]
      simp only [denote]
      rw [eval_bool_to_bits_compare ν op _ _ result_bits hr, hv2]
      simp only [eval, bits, hw2, (evalCmpOp_mod op w arg1 arg2).1]
  simp only [List.mem_cons, List.mem_singleton, List.not_mem_nil, or_false,
    Prod.mk.injEq] at hentry
  rcases hentry with ⟨_, rfl⟩ | ⟨_, rfl⟩
  · exact key 32 (by norm_num)
  · exact key 64 (by norm_num)

/-- The comparison builders on operands that fit the width `w`: equality and
the unsigned orders are those of the operand values, the signed orders those of
their signed readings. -/
theorem evalCmpOp_in_range (w a b : Nat) (ha : a < 2 ^ w) (hb : b < 2 ^ w) :
    evalCmpOp CmpOp.equal w a b = decide (a = b)
    ∧ evalCmpOp CmpOp.not_equal w a b = decide (a ≠ b)
    ∧ evalCmpOp CmpOp.signed_less_than w a b = decide (toSigned w a < toSigned w b)
    ∧ evalCmpOp CmpOp.signed_greater_equal w a b = decide (toSigned w a ≥ toSigned w b)
    ∧ evalCmpOp CmpOp.signed_less_equal w a b = decide (toSigned w a ≤ toSigned w b)
    ∧ evalCmpOp CmpOp.signed_greater_than w a b = decide (toSigned w a > toSigned w b)
    ∧ evalCmpOp CmpOp.unsigned_less_than w a b = decide (a < b)
    ∧ evalCmpOp CmpOp.unsigned_greater_equal w a b = decide (a ≥ b)
    ∧ evalCmpOp CmpOp.unsigned_less_equal w a b = decide (a ≤ b)
    ∧ evalCmpOp CmpOp.unsigned_greater_than w a b = decide (a > b) := by
  refine ⟨?_, ?_, rfl, rfl, rfl, rfl, ?_, ?_, ?_, ?_⟩ <;>
  simp only [evalCmpOp, Nat.mod_eq_of_lt ha, Nat.mod_eq_of_lt hb]

/-- C14 (setcond round trip): the ten `case` labels being pairwise distinct,
for the entry point of width `w` (32 or 64), concrete operands that fit `w`
bits, a condition code of the table below and the concrete setcond `result`
(`1` when the comparison listed with the code holds between the concrete
operands, `0` otherwise; `LT`, `GE`, `LE`, `GT` compare the signed readings at
width `w`, the others the unsigned values), and for present operand expressions
of width `w` whose value under the valuation is the concrete operand: the
expression returned denotes `result`, also when one expression is `NULL` and
the operand is materialized from its concrete value; the path constraint
submitted has a comparison that denotes `result` and the truth value `result`,
and the expression returned is its conversion to `w` bits. -/
theorem setcond_round_trip (codes : TCGCond) (hd : TCGCond.distinct codes) (w : Nat)
    (entry : Nat → Option SymExpr → Nat → Option SymExpr → Int → Nat → Sym (Option SymExpr))
    (hentry : (w, entry) ∈
      [(32, helper_sym_setcond_i32 codes), (64, helper_sym_setcond_i64 codes)])
    (ν : Nat → Nat) (arg1 arg2 result : Nat) (ha1 : arg1 < 2 ^ w) (ha2 : arg2 < 2 ^ w)
    (cond : Int) (holds : Bool)
    (hp : (cond, holds) ∈
      [(codes.TCG_COND_EQ, decide (arg1 = arg2)),
       (codes.TCG_COND_NE, decide (arg1 ≠ arg2)),
       (codes.TCG_COND_LT, decide (toSigned w arg1 < toSigned w arg2)),
       (codes.TCG_COND_GE, decide (toSigned w arg1 ≥ toSigned w arg2)),
       (codes.TCG_COND_LE, decide (toSigned w arg1 ≤ toSigned w arg2)),
       (codes.TCG_COND_GT, decide (toSigned w arg1 > toSigned w arg2)),
       (codes.TCG_COND_LTU, decide (arg1 < arg2)),
       (codes.TCG_COND_GEU, decide (arg1 ≥ arg2)),
       (codes.TCG_COND_LEU, decide (arg1 ≤ arg2)),
       (codes.TCG_COND_GTU, decide (arg1 > arg2))])
    (hres : result = if holds then 1 else 0)
    (e1 e2 : SymExpr) (hw1 : bits e1 = w) (hw2 : bits e2 = w)
    (hv1 : eval ν e1 = arg1) (hv2 : eval ν e2 = arg2) (t : List Call) :
    denote ν (entry arg1 (some e1) arg2 (some e2) cond result t) = some result
    ∧ denote ν (entry arg1 (some e1) arg2 none cond result t) = some result
    ∧ denote ν (entry arg1 none arg2 (some e2) cond result t) = some result
    ∧ (∃ c : SymExpr,
        entry arg1 (some e1) arg2 (some e2) cond result t
          = (Outcome.ret (some (SymExpr.bool_to_bits c w)),
             t ++ [Call.build c, Call.push_path_constraint c result 42,
                   Call.build (SymExpr.bool_to_bits c w)])
        ∧ eval ν c = result) := by
  have hr := evalCmpOp_in_range w arg1 arg2 ha1 ha2
  have hex : ∃ op : CmpOp, setcond_handler codes cond = some op
      ∧ evalCmpOp op w arg1 arg2 = holds := by
    simp only [TCGCond.distinct, TCGCond.values, List.nodup_cons, List.mem_cons,
      List.mem_singleton, List.not_mem_nil, not_or, List.nodup_nil, or_false, and_true,
      not_false_eq_true] at hd
    obtain ⟨⟨h01, h02, h03, h04, h05, h06, h07, h08, h09⟩,
      ⟨h12, h13, h14, h15, h16, h17, h18, h19⟩,
      ⟨h23, h24, h25, h26, h27, h28, h29⟩,
      ⟨h34, h35, h36, h37, h38, h39⟩,
      ⟨h45, h46, h47, h48, h49⟩,
      ⟨h56, h57, h58, h59⟩,
      ⟨h67, h68, h69⟩,
      ⟨h78, h79⟩,
      h89⟩ := hd
    simp only [List.mem_cons, List.mem_singleton, List.not_mem_nil, or_false,
      Prod.mk.injEq] at hp
    unfold setcond_handler
    rcases hp with ⟨rfl, rfl⟩ | hp
    · refine ⟨CmpOp.equal, ?_, hr.1⟩
      rw [if_pos rfl]
    rcases hp with ⟨rfl, rfl⟩ | hp
    · refine ⟨CmpOp.not_equal, ?_, hr.2.1⟩
      rw [if_neg (Ne.symm h01), if_pos rfl]
    rcases hp with ⟨rfl, rfl⟩ | hp
    · refine ⟨CmpOp.signed_less_than, ?_, hr.2.2.1⟩
      rw [if_neg (Ne.symm h02), if_neg (Ne.symm h12), if_pos rfl]
    rcases hp with ⟨rfl, rfl⟩ | hp
    · refine ⟨CmpOp.signed_greater_equal, ?_, hr.2.2.2.1⟩
      rw [if_neg (Ne.symm h03), if_neg (Ne.symm h13), if_neg (Ne.symm h23), if_pos rfl]
    rcases hp with ⟨rfl, rfl⟩ | hp
    · refine ⟨CmpOp.signed_less_equal, ?_, hr.2.2.2.2.1⟩
      rw [if_neg (Ne.symm h04), if_neg (Ne.symm h14), if_neg (Ne.symm h24), if_neg (Ne.symm h34),
        if_pos rfl]
    rcases hp with ⟨rfl, rfl⟩ | hp
    · refine ⟨CmpOp.signed_greater_than, ?_, hr.2.2.2.2.2.1⟩
      rw [if_neg (Ne.symm h05), if_neg (Ne.symm h15), if_neg (Ne.symm h25), if_neg (Ne.symm h35),
        if_neg (Ne.symm h45), if_pos rfl]
    rcases hp with ⟨rfl, rfl⟩ | hp
    · refine ⟨CmpOp.unsigned_less_than, ?_, hr.2.2.2.2.2.2.1⟩
      rw [if_neg (Ne.symm h06), if_neg (Ne.symm h16), if_neg (Ne.symm h26), if_neg (Ne.symm h36),
        if_neg (Ne.symm h46), if_neg (Ne.symm h56), if_pos rfl]
    rcases hp with ⟨rfl, rfl⟩ | hp
    · refine ⟨CmpOp.unsigned_greater_equal, ?_, hr.2.2.2.2.2.2.2.1⟩
      rw [if_neg (Ne.symm h07), if_neg (Ne.symm h17), if_neg (Ne.symm h27), if_neg (Ne.symm h37),
        if_neg (Ne.symm h47), if_neg (Ne.symm h57), if_neg (Ne.symm h67), if_pos rfl]
    rcases hp with ⟨rfl, rfl⟩ | hp
    · refine ⟨CmpOp.unsigned_less_equal, ?_, hr.2.2.2.2.2.2.2.2.1⟩
      rw [if_neg (Ne.symm h08), if_neg (Ne.symm h18), if_neg (Ne.symm h28), if_neg (Ne.symm h38),
        if_neg (Ne.symm h48), if_neg (Ne.symm h58), if_neg (Ne.symm h68), if_neg (Ne.symm h78),
        if_pos rfl]
    obtain ⟨rfl, rfl⟩ := hp
    refine ⟨CmpOp.unsigned_greater_than, ?_, hr.2.2.2.2.2.2.2.2.2⟩
    rw [if_neg (Ne.symm h09), if_neg (Ne.symm h19), if_neg (Ne.symm h29), if_neg (Ne.symm h39),
      if_neg (Ne.symm h49), if_neg (Ne.symm h59), if_neg (Ne.symm h69), if_neg (Ne.symm h79),
      if_neg (Ne.symm h89), if_pos rfl]
  obtain ⟨op, hv, hholds⟩ := hex
  have hden := setcond_denotes_handler codes cond op hv w entry hentry ν arg1 arg2 result e1 e2
    hw1 hw2 hv1 hv2 t
  simp only [hholds] at hden
  rw [← hres] at hden
  refine ⟨hden.1, hden.2.1, hden.2.2, SymExpr.compare op e1 e2, ?_, ?_⟩
  · simp only [List.mem_cons, List.mem_singleton, List.not_mem_nil, or_false,
      Prod.mk.injEq] at hentry
    rcases hentry with ⟨rfl, rfl⟩ | ⟨rfl, rfl⟩
    · exact (setcond_internal_valid codes cond op hv arg1 arg2 result 32 e1 e2 t).1
    · exact (setcond_internal_valid codes cond op hv arg1 arg2 result 64 e1 e2 t).1
  · simp only [eval, hw1, hv1, hv2, hholds]
    exact hres.symm

/-- Witness for C14, the example of the specification: condition `EQ` (code
`8` in QEMU's numbering), `arg1 = 5`, `arg2 = 5`, both symbolic, concrete
result `1`: the returned expression denotes `1`, and the path constraint is
submitted with truth value `1`. -/
theorem setcond_round_trip_witness :
    denote (fun _ => 5)
        (helper_sym_setcond_i32 example_codes 5 (some (SymExpr.input 0 32)) 5
          (some (SymExpr.input 1 32)) 8 1 [])
      = some 1
    ∧ Call.push_path_constraint
        (SymExpr.compare CmpOp.equal (SymExpr.input 0 32) (SymExpr.input 1 32)) 1 42
      ∈ (helper_sym_setcond_i32 example_codes 5 (some (SymExpr.input 0 32)) 5
          (some (SymExpr.input 1 32)) 8 1 []).2 :=
  ⟨(setcond_round_trip example_codes (by unfold TCGCond.distinct; decide) 32
      (helper_sym_setcond_i32 example_codes) (by simp) (fun _ => 5) 5 5 1 (by decide)
      (by decide) 8 (decide ((5 : Nat) = 5)) (by simp [example_codes]) (by decide)
      (SymExpr.input 0 32) (SymExpr.input 1 32) rfl rfl (by decide) (by decide) []).1,
    by decide⟩

/-- C15 (stubs): `helper_sym_bswap`, the four rotate helpers and the two
`extract2` helpers return `NULL` for every input, whether the expressions
passed are present or not, and call no backend function. -/
theorem stubs_concretize (arg1 arg2 length ofs : Nat) (x1 x2 : Option SymExpr)
    (t : List Call) :
    helper_sym_bswap x1 length t = (Outcome.ret none, t)
    ∧ helper_sym_rotate_left_i32 arg1 x1 arg2 x2 t = (Outcome.ret none, t)
    ∧ helper_sym_rotate_left_i64 arg1 x1 arg2 x2 t = (Outcome.ret none, t)
    ∧ helper_sym_rotate_right_i32 arg1 x1 arg2 x2 t = (Outcome.ret none, t)
    ∧ helper_sym_rotate_right_i64 arg1 x1 arg2 x2 t = (Outcome.ret none, t)
    ∧ helper_sym_extract2_i32 arg1 x1 arg2 x2 ofs t = (Outcome.ret none, t)
    ∧ helper_sym_extract2_i64 arg1 x1 arg2 x2 ofs t = (Outcome.ret none, t) :=
  ⟨rfl, rfl, rfl, rfl, rfl, rfl, rfl⟩

/-- C16 as stated fails for deposit and setcond: on the same handles and
arguments `helper_sym_deposit_i32` builds its constants at 32 bits where
`helper_sym_deposit_i64` builds them at 64 bits, and `helper_sym_setcond_i32`
converts the comparison to 32 bits where `helper_sym_setcond_i64` converts it
to 64 bits. -/
theorem narrow_differs_from_wide :
    helper_sym_deposit_i32 0xFFFFFFFF (some (SymExpr.input 0 32)) 0 none 4 4 []
      ≠ helper_sym_deposit_i64 0xFFFFFFFF (some (SymExpr.input 0 32)) 0 none 4 4 []
    ∧ helper_sym_setcond_i32 example_codes 5 (some (SymExpr.input 0 32)) 5
        (some (SymExpr.input 1 32)) 8 1 []
      ≠ helper_sym_setcond_i64 example_codes 5 (some (SymExpr.input 0 32)) 5
        (some (SymExpr.input 1 32)) 8 1 [] := by
  decide

/-- C16 (amended): for the thirteen primitive binary helpers, `andc`, `eqv`,
`nand`, `nor`, `orc` and the two rotates, and for `extract`, `sextract` and
`extract2`, the 32-bit entry point returns what the 64-bit entry point returns
on the same handles and arguments, with the same backend calls.  The deposit
and setcond entry points agree when both expressions are `NULL`;
`helper_sym_setcond_i32` and `helper_sym_setcond_i64` are
`sym_setcond_internal` at result width 32 and 64. -/
theorem narrow_equals_wide (h32 h64 : BinaryHelper)
    (hp : (h32, h64) ∈
      [(helper_sym_add_i32, helper_sym_add_i64), (helper_sym_sub_i32, helper_sym_sub_i64),
       (helper_sym_mul_i32, helper_sym_mul_i64), (helper_sym_div_i32, helper_sym_div_i64),
       (helper_sym_divu_i32, helper_sym_divu_i64), (helper_sym_rem_i32, helper_sym_rem_i64),
       (helper_sym_remu_i32, helper_sym_remu_i64), (helper_sym_and_i32, helper_sym_and_i64),
       (helper_sym_or_i32, helper_sym_or_i64), (helper_sym_xor_i32, helper_sym_xor_i64),
       (helper_sym_shift_right_i32, helper_sym_shift_right_i64),
       (helper_sym_arithmetic_shift_right_i32, helper_sym_arithmetic_shift_right_i64),
       (helper_sym_shift_left_i32, helper_sym_shift_left_i64),
       (helper_sym_andc_i32, helper_sym_andc_i64), (helper_sym_eqv_i32, helper_sym_eqv_i64),
       (helper_sym_nand_i32, helper_sym_nand_i64), (helper_sym_nor_i32, helper_sym_nor_i64),
       (helper_sym_orc_i32, helper_sym_orc_i64),
       (helper_sym_rotate_left_i32, helper_sym_rotate_left_i64),
       (helper_sym_rotate_right_i32, helper_sym_rotate_right_i64)])
    (codes : TCGCond) (cond : Int) (arg1 arg2 ofs len result : Nat)
    (x1 x2 : Option SymExpr) (t : List Call) :
    h32 arg1 x1 arg2 x2 t = h64 arg1 x1 arg2 x2 t
    ∧ helper_sym_extract_i32 x1 ofs len t = helper_sym_extract_i64 x1 ofs len t
    ∧ helper_sym_sextract_i32 x1 ofs len t = helper_sym_sextract_i64 x1 ofs len t
    ∧ helper_sym_extract2_i32 arg1 x1 arg2 x2 ofs t
      = helper_sym_extract2_i64 arg1 x1 arg2 x2 ofs t
    ∧ helper_sym_deposit_i32 arg1 none arg2 none ofs len t
      = helper_sym_deposit_i64 arg1 none arg2 none ofs len t
    ∧ helper_sym_setcond_i32 codes arg1 none arg2 none cond result t
      = helper_sym_setcond_i64 codes arg1 none arg2 none cond result t
    ∧ helper_sym_setcond_i32 codes arg1 x1 arg2 x2 cond result t
      = sym_setcond_internal codes arg1 x1 arg2 x2 cond result 32 t
    ∧ helper_sym_setcond_i64 codes arg1 x1 arg2 x2 cond result t
      = sym_setcond_internal codes arg1 x1 arg2 x2 cond result 64 t := by
  have hd32 : helper_sym_deposit_i32 arg1 none arg2 none ofs len t = (Outcome.ret none, t) := rfl
  have hd64 : helper_sym_deposit_i64 arg1 none arg2 none ofs len t = (Outcome.ret none, t) := rfl
  refine ⟨?_, rfl, rfl, rfl, hd32.trans hd64.symm, rfl, rfl, rfl⟩
  simp only [List.mem_cons, List.mem_singleton, List.not_mem_nil, or_false, Prod.mk.injEq] at hp
  repeat
    rcases hp with ⟨rfl, rfl⟩ | hp
    · rfl
  obtain ⟨rfl, rfl⟩ := hp
  rfl

/-- Witness for C16 (amended): the `andc` helpers on one present operand. -/
theorem narrow_equals_wide_witness :
    helper_sym_andc_i32 1 (some (SymExpr.input 0 32)) 2 none []
      = helper_sym_andc_i64 1 (some (SymExpr.input 0 32)) 2 none [] :=
  (narrow_equals_wide helper_sym_andc_i32 helper_sym_andc_i64 (by simp) example_codes 8 1 2 0 8 1
    (some (SymExpr.input 0 32)) none []).1

/-- C18 (width adjustment reaches the target width): for a present expression
`e` and a target length `n` with `n * 8` below `2 ^ 64`, both helpers return a
present expression of bit width exactly `n * 8` (the truncate, sign-extend and
zero-extend nodes having the target width they are given), and either helper
applied to that result with the same `n` returns it unchanged after the width
query alone. -/
theorem width_adjustment_reaches_target (e : SymExpr) (n : Nat) (t t2 : List Call)
    (hn : n * 8 < 2 ^ 64) :
    (∃ r, (helper_sym_sext_or_trunc (some e) n t).1 = Outcome.ret (some r)
      ∧ bits r = n * 8
      ∧ helper_sym_sext_or_trunc (some r) n t2
        = (Outcome.ret (some r), t2 ++ [Call.bits_helper r])
      ∧ helper_sym_zext_or_trunc (some r) n t2
        = (Outcome.ret (some r), t2 ++ [Call.bits_helper r]))
    ∧ (∃ r, (helper_sym_zext_or_trunc (some e) n t).1 = Outcome.ret (some r)
      ∧ bits r = n * 8
      ∧ helper_sym_sext_or_trunc (some r) n t2
        = (Outcome.ret (some r), t2 ++ [Call.bits_helper r])
      ∧ helper_sym_zext_or_trunc (some r) n t2
        = (Outcome.ret (some r), t2 ++ [Call.bits_helper r])) := by
  have hd : n * 8 % 2 ^ 64 = n * 8 := Nat.mod_eq_of_lt hn
  simp only [helper_sym_sext_or_trunc, helper_sym_zext_or_trunc]
  rw [hd]
  generalize n * 8 = d
  rcases Nat.lt_trichotomy (bits e) d with hlt | heq | hgt
  · have h1 : ¬ bits e = d := by omega
    have h2 : ¬ d < bits e := by omega
    refine ⟨⟨SymExpr.sext e d, ?_, rfl, ?_, ?_⟩, ⟨SymExpr.zext e d, ?_, rfl, ?_, ?_⟩⟩ <;>
    simp [bind, Sym.bind, pure, Sym.pure, _sym_bits_helper, _sym_build_trunc, _sym_build_sext,
      _sym_build_zext, emit, h1, h2, hlt, bits]
  · refine ⟨⟨e, ?_, heq, ?_, ?_⟩, ⟨e, ?_, heq, ?_, ?_⟩⟩ <;>
    simp [bind, Sym.bind, pure, Sym.pure, _sym_bits_helper, heq]
  · have h1 : ¬ bits e = d := by omega
    refine ⟨⟨SymExpr.trunc e d, ?_, rfl, ?_, ?_⟩, ⟨SymExpr.trunc e d, ?_, rfl, ?_, ?_⟩⟩ <;>
    simp [bind, Sym.bind, pure, Sym.pure, _sym_bits_helper, _sym_build_trunc, _sym_build_sext,
      _sym_build_zext, emit, h1, hgt, bits]

/-- Witness for C18: a 32-bit expression adjusted to 8 bytes. -/
theorem width_adjustment_reaches_target_witness :
    ∃ r, (helper_sym_sext_or_trunc (some (SymExpr.input 0 32)) 8 []).1 = Outcome.ret (some r)
      ∧ bits r = 8 * 8
      ∧ helper_sym_sext_or_trunc (some r) 8 [] = (Outcome.ret (some r), [] ++ [Call.bits_helper r])
      ∧ helper_sym_zext_or_trunc (some r) 8 []
        = (Outcome.ret (some r), [] ++ [Call.bits_helper r]) :=
  (width_adjustment_reaches_target (SymExpr.input 0 32) 8 [] [] (by decide)).1

/-- The helpers that start with the materialization macro are the primitive and
derived helpers followed by the deposit and setcond entry points. -/
theorem binary_shadow_operations_eq (codes : TCGCond) (ofs len : Nat) (cond : Int) (result : Nat) :
    binary_shadow_operations codes ofs len cond result
      = primitive_and_derived_operations ++
        [fun arg1 arg1_expr arg2 arg2_expr =>
           helper_sym_deposit_i32 arg1 arg1_expr arg2 arg2_expr ofs len,
         fun arg1 arg1_expr arg2 arg2_expr =>
           helper_sym_deposit_i64 arg1 arg1_expr arg2 arg2_expr ofs len,
         fun arg1 arg1_expr arg2 arg2_expr =>
           helper_sym_setcond_i32 codes arg1 arg1_expr arg2 arg2_expr cond result,
         fun arg1 arg1_expr arg2 arg2_expr =>
           helper_sym_setcond_i64 codes arg1 arg1_expr arg2 arg2_expr cond result] := rfl

/-- A `DEF_HELPER_BINARY` helper returns a present handle when an operand is
present, and returns `NULL` exactly when both are `NULL`. -/
theorem primitive_and_derived_run_primitive (symcc_name : BinOp) (arg1 arg2 : Nat)
    (x1 x2 : Option SymExpr) (t : List Call) :
    ((x1 ≠ none ∨ x2 ≠ none) →
      returns_present (DEF_HELPER_BINARY_i64 symcc_name arg1 x1 arg2 x2 t))
    ∧ ((DEF_HELPER_BINARY_i64 symcc_name arg1 x1 arg2 x2 t).1 = Outcome.ret none
        ↔ x1 = none ∧ x2 = none) := by
  cases x1 <;> cases x2 <;>
  simp [returns_present, DEF_HELPER_BINARY_i64, helper_sym_andc_i64, helper_sym_eqv_i64,
    helper_sym_nand_i64,
    helper_sym_nor_i64, helper_sym_orc_i64, BINARY_HELPER_ENSURE_EXPRESSIONS,
    bind, Sym.bind, pure, Sym.pure, _sym_bits_helper, _sym_build_integer, _sym_build,
    _sym_build_and, _sym_build_or, _sym_build_xor, _sym_build_neg, emit]

/-- The derived bitwise helpers return a present handle when an operand is
present, and return `NULL` exactly when both are `NULL`. -/
theorem primitive_and_derived_run_derived (arg1 arg2 : Nat) (x1 x2 : Option SymExpr)
    (t : List Call) :
    (((x1 ≠ none ∨ x2 ≠ none) → returns_present (helper_sym_andc_i64 arg1 x1 arg2 x2 t))
    ∧ ((helper_sym_andc_i64 arg1 x1 arg2 x2 t).1 = Outcome.ret none ↔ x1 = none ∧ x2 = none))
    ∧ (((x1 ≠ none ∨ x2 ≠ none) → returns_present (helper_sym_eqv_i64 arg1 x1 arg2 x2 t))
    ∧ ((helper_sym_eqv_i64 arg1 x1 arg2 x2 t).1 = Outcome.ret none ↔ x1 = none ∧ x2 = none))
    ∧ (((x1 ≠ none ∨ x2 ≠ none) → returns_present (helper_sym_nand_i64 arg1 x1 arg2 x2 t))
    ∧ ((helper_sym_nand_i64 arg1 x1 arg2 x2 t).1 = Outcome.ret none ↔ x1 = none ∧ x2 = none))
    ∧ (((x1 ≠ none ∨ x2 ≠ none) → returns_present (helper_sym_nor_i64 arg1 x1 arg2 x2 t))
    ∧ ((helper_sym_nor_i64 arg1 x1 arg2 x2 t).1 = Outcome.ret none ↔ x1 = none ∧ x2 = none))
    ∧ (((x1 ≠ none ∨ x2 ≠ none) → returns_present (helper_sym_orc_i64 arg1 x1 arg2 x2 t))
    ∧ ((helper_sym_orc_i64 arg1 x1 arg2 x2 t).1 = Outcome.ret none
        ↔ x1 = none ∧ x2 = none)) := by
  refine ⟨?_, ?_, ?_, ?_, ?_⟩ <;> cases x1 <;> cases x2 <;>
  simp [returns_present, DEF_HELPER_BINARY_i64, helper_sym_andc_i64, helper_sym_eqv_i64,
    helper_sym_nand_i64,
    helper_sym_nor_i64, helper_sym_orc_i64, BINARY_HELPER_ENSURE_EXPRESSIONS,
    bind, Sym.bind, pure, Sym.pure, _sym_bits_helper, _sym_build_integer, _sym_build,
    _sym_build_and, _sym_build_or, _sym_build_xor, _sym_build_neg, emit]

/-- Every primitive or derived helper returns a present handle when an operand
is present, and returns `NULL` exactly when both are `NULL`. -/
theorem primitive_and_derived_run (g : BinaryHelper)
    (hg : g ∈ primitive_and_derived_operations) (arg1 arg2 : Nat) (x1 x2 : Option SymExpr)
    (t : List Call) :
    ((x1 ≠ none ∨ x2 ≠ none) → returns_present (g arg1 x1 arg2 x2 t))
    ∧ ((g arg1 x1 arg2 x2 t).1 = Outcome.ret none ↔ x1 = none ∧ x2 = none) := by
  have hd := primitive_and_derived_run_derived arg1 arg2 x1 x2 t
  simp only [primitive_and_derived_operations, List.mem_cons, List.mem_singleton,
    List.not_mem_nil, or_false] at hg
  repeat
    rcases hg with rfl | hg
    · first
        | exact primitive_and_derived_run_primitive _ arg1 arg2 x1 x2 t
        | exact hd.1
        | exact hd.2.1
        | exact hd.2.2.1
        | exact hd.2.2.2.1
        | exact hd.2.2.2.2

/-- The deposit body returns a present handle when an operand is present and
both shift counts are below the width, and never returns `NULL` unless both
expressions are `NULL`. -/
theorem deposit_body_run (width arg1 arg2 ofs len : Nat) (x1 x2 : Option SymExpr) (t : List Call) :
    (len < width → ofs < width → (x1 ≠ none ∨ x2 ≠ none) →
      returns_present (deposit_body width arg1 x1 arg2 x2 ofs len t))
    ∧ ((deposit_body width arg1 x1 arg2 x2 ofs len t).1 = Outcome.ret none
        ↔ x1 = none ∧ x2 = none) := by
  by_cases hl : len < width <;> by_cases ho : ofs < width <;> cases x1 <;> cases x2 <;>
  simp [returns_present, deposit_body, shift_left_unsigned, undefined_behaviour, hl, ho,
    BINARY_HELPER_ENSURE_EXPRESSIONS, bind, Sym.bind, pure, Sym.pure, _sym_bits_helper,
    _sym_build_integer, _sym_build, _sym_build_and, _sym_build_or, _sym_build_shift_left, emit]

/-- The function `sym_setcond_internal` returns a present handle when an
operand is present and the code is one of the ten labels, and never returns
`NULL` unless both expressions are `NULL`. -/
theorem setcond_internal_run (codes : TCGCond) (cond : Int) (arg1 arg2 result result_bits : Nat)
    (x1 x2 : Option SymExpr) (t : List Call) :
    (cond ∈ TCGCond.values codes → (x1 ≠ none ∨ x2 ≠ none) →
      returns_present (sym_setcond_internal codes arg1 x1 arg2 x2 cond result result_bits t))
    ∧ ((sym_setcond_internal codes arg1 x1 arg2 x2 cond result result_bits t).1
        = Outcome.ret none ↔ x1 = none ∧ x2 = none) := by
  rcases setcond_handler_cases codes cond with ⟨hn, hnot⟩ | ⟨op, hop, _⟩
  · cases x1 <;> cases x2 <;>
    simp [returns_present, sym_setcond_internal, hn, hnot, g_assert_not_reached,
      BINARY_HELPER_ENSURE_EXPRESSIONS, bind, Sym.bind, pure, Sym.pure, _sym_bits_helper,
      _sym_build_integer, emit]
  · cases x1 <;> cases x2 <;>
    simp [returns_present, sym_setcond_internal, hop,
      BINARY_HELPER_ENSURE_EXPRESSIONS, bind, Sym.bind, pure, Sym.pure, _sym_bits_helper,
      _sym_build_integer, _sym_build_compare, _sym_push_path_constraint,
      _sym_build_bool_to_bits, emit]

/-- Width adjustment of a present expression returns a present handle. -/
theorem ext_or_trunc_present (e : SymExpr) (n : Nat) (t : List Call) :
    returns_present (helper_sym_sext_or_trunc (some e) n t)
    ∧ returns_present (helper_sym_zext_or_trunc (some e) n t) := by
  simp only [helper_sym_sext_or_trunc, helper_sym_zext_or_trunc]
  generalize n * 8 % 2 ^ 64 = d
  rcases Nat.lt_trichotomy (bits e) d with hlt | heq | hgt
  · have h1 : ¬ bits e = d := by omega
    have h2 : ¬ d < bits e := by omega
    simp [returns_present, bind, Sym.bind, pure, Sym.pure, _sym_bits_helper, _sym_build_trunc,
      _sym_build_sext, _sym_build_zext, emit, h1, h2, hlt]
  · simp [returns_present, bind, Sym.bind, pure, Sym.pure, _sym_bits_helper, heq]
  · have h1 : ¬ bits e = d := by omega
    simp [returns_present, bind, Sym.bind, pure, Sym.pure, _sym_bits_helper, _sym_build_trunc,
      _sym_build_sext, _sym_build_zext, emit, h1, hgt]

/-- The calls of a `DEF_HELPER_BINARY` helper are width-coherent. -/
theorem primitive_and_derived_widths_primitive (symcc_name : BinOp) (w arg1 arg2 : Nat)
    (x1 x2 : Option SymExpr)
    (hx1 : ∀ e, x1 = some e → bits e = w) (hx2 : ∀ e, x2 = some e → bits e = w) :
    ∀ c ∈ (DEF_HELPER_BINARY_i64 symcc_name arg1 x1 arg2 x2 []).2, two_operand_widths w c := by
  cases x1 <;> cases x2 <;> simp at hx1 hx2 <;>
  simp [*, two_operand_widths, bits, DEF_HELPER_BINARY_i64, helper_sym_andc_i64,
    helper_sym_eqv_i64, helper_sym_nand_i64,
    helper_sym_nor_i64, helper_sym_orc_i64, BINARY_HELPER_ENSURE_EXPRESSIONS,
    bind, Sym.bind, pure, Sym.pure, _sym_bits_helper, _sym_build_integer, _sym_build,
    _sym_build_and, _sym_build_or, _sym_build_xor, _sym_build_neg, emit]

/-- The calls of the derived bitwise helpers are width-coherent. -/
theorem primitive_and_derived_widths_derived (w arg1 arg2 : Nat) (x1 x2 : Option SymExpr)
    (hx1 : ∀ e, x1 = some e → bits e = w) (hx2 : ∀ e, x2 = some e → bits e = w) :
    (∀ c ∈ (helper_sym_andc_i64 arg1 x1 arg2 x2 []).2, two_operand_widths w c)
    ∧ (∀ c ∈ (helper_sym_eqv_i64 arg1 x1 arg2 x2 []).2, two_operand_widths w c)
    ∧ (∀ c ∈ (helper_sym_nand_i64 arg1 x1 arg2 x2 []).2, two_operand_widths w c)
    ∧ (∀ c ∈ (helper_sym_nor_i64 arg1 x1 arg2 x2 []).2, two_operand_widths w c)
    ∧ (∀ c ∈ (helper_sym_orc_i64 arg1 x1 arg2 x2 []).2, two_operand_widths w c) := by
  refine ⟨?_, ?_, ?_, ?_, ?_⟩ <;> cases x1 <;> cases x2 <;> simp at hx1 hx2 <;>
  simp [*, two_operand_widths, bits, DEF_HELPER_BINARY_i64, helper_sym_andc_i64,
    helper_sym_eqv_i64, helper_sym_nand_i64,
    helper_sym_nor_i64, helper_sym_orc_i64, BINARY_HELPER_ENSURE_EXPRESSIONS,
    bind, Sym.bind, pure, Sym.pure, _sym_bits_helper, _sym_build_integer, _sym_build,
    _sym_build_and, _sym_build_or, _sym_build_xor, _sym_build_neg, emit]

/-- The calls of every primitive or derived helper are width-coherent. -/
theorem primitive_and_derived_widths (g : BinaryHelper)
    (hg : g ∈ primitive_and_derived_operations) (w arg1 arg2 : Nat) (x1 x2 : Option SymExpr)
    (hx1 : ∀ e, x1 = some e → bits e = w) (hx2 : ∀ e, x2 = some e → bits e = w) :
    ∀ c ∈ (g arg1 x1 arg2 x2 []).2, two_operand_widths w c := by
  have hd := primitive_and_derived_widths_derived w arg1 arg2 x1 x2 hx1 hx2
  simp only [primitive_and_derived_operations, List.mem_cons, List.mem_singleton,
    List.not_mem_nil, or_false] at hg
  repeat
    rcases hg with rfl | hg
    · first
        | exact primitive_and_derived_widths_primitive _ w arg1 arg2 x1 x2 hx1 hx2
        | exact hd.1
        | exact hd.2.1
        | exact hd.2.2.1
        | exact hd.2.2.2.1
        | exact hd.2.2.2.2

/-- The calls of the deposit body at its own width are width-coherent. -/
theorem deposit_body_widths (width arg1 arg2 ofs len : Nat) (x1 x2 : Option SymExpr)
    (hx1 : ∀ e, x1 = some e → bits e = width) (hx2 : ∀ e, x2 = some e → bits e = width) :
    ∀ c ∈ (deposit_body width arg1 x1 arg2 x2 ofs len []).2, two_operand_widths width c := by
  by_cases hl : len < width <;> by_cases ho : ofs < width <;> cases x1 <;> cases x2 <;>
  simp at hx1 hx2 <;>
  simp [*, two_operand_widths, bits, deposit_body, shift_left_unsigned, undefined_behaviour,
    BINARY_HELPER_ENSURE_EXPRESSIONS, bind, Sym.bind, pure, Sym.pure, _sym_bits_helper,
    _sym_build_integer, _sym_build, _sym_build_and, _sym_build_or, _sym_build_shift_left, emit]

/-- The calls of `sym_setcond_internal` are width-coherent. -/
theorem setcond_internal_widths (codes : TCGCond) (cond : Int)
    (w arg1 arg2 result result_bits : Nat) (x1 x2 : Option SymExpr)
    (hx1 : ∀ e, x1 = some e → bits e = w) (hx2 : ∀ e, x2 = some e → bits e = w) :
    ∀ c ∈ (sym_setcond_internal codes arg1 x1 arg2 x2 cond result result_bits []).2,
      two_operand_widths w c := by
  rcases setcond_handler_cases codes cond with ⟨hn, -⟩ | ⟨op, hop, -⟩
  · cases x1 <;> cases x2 <;> simp at hx1 hx2 <;>
    simp [*, two_operand_widths, bits, sym_setcond_internal, g_assert_not_reached,
      BINARY_HELPER_ENSURE_EXPRESSIONS, bind, Sym.bind, pure, Sym.pure, _sym_bits_helper,
      _sym_build_integer, emit]
  · cases x1 <;> cases x2 <;> simp at hx1 hx2 <;>
    simp [*, two_operand_widths, bits, sym_setcond_internal,
      BINARY_HELPER_ENSURE_EXPRESSIONS, bind, Sym.bind, pure, Sym.pure, _sym_bits_helper,
      _sym_build_integer, _sym_build_compare, _sym_push_path_constraint,
      _sym_build_bool_to_bits, emit]

/-- The implemented unary helpers return a present handle for a present
expression. -/
theorem unary_run (e : SymExpr) (n ofs len : Nat) (t : List Call) :
    returns_present (helper_sym_neg (some e) t)
    ∧ returns_present (helper_sym_not (some e) t)
    ∧ returns_present (helper_sym_sext_or_trunc (some e) n t)
    ∧ returns_present (helper_sym_zext_or_trunc (some e) n t)
    ∧ returns_present (helper_sym_extract_i32 (some e) ofs len t)
    ∧ returns_present (helper_sym_extract_i64 (some e) ofs len t)
    ∧ returns_present (helper_sym_sextract_i32 (some e) ofs len t)
    ∧ returns_present (helper_sym_sextract_i64 (some e) ofs len t) := by
  obtain ⟨hs, hz⟩ := ext_or_trunc_present e n t
  refine ⟨?_, ?_, hs, hz, ?_, ?_, ?_, ?_⟩ <;>
  simp [returns_present, helper_sym_neg, helper_sym_not, helper_sym_extract_i32,
    helper_sym_extract_i64, helper_sym_sextract_i32, helper_sym_sextract_i64, bind, Sym.bind,
    pure, Sym.pure, _sym_bits_helper, _sym_build_integer, _sym_build_sub, _sym_build,
    _sym_build_neg, _sym_extract_helper, _sym_build_zext, _sym_build_sext, emit]

/-- A run that returned a present handle did not return `NULL`. -/
theorem returns_present_ne_absent (run : Outcome (Option SymExpr) × List Call)
    (h : returns_present run) : run.1 ≠ Outcome.ret none := by
  obtain ⟨r, hr⟩ := h
  rw [hr]
  simp

/-- The implemented unary helpers return `NULL` exactly for `NULL`. -/
theorem unary_absent_iff (y : Option SymExpr) (n ofs len : Nat) (t : List Call) :
    ((helper_sym_neg y t).1 = Outcome.ret none ↔ y = none)
    ∧ ((helper_sym_not y t).1 = Outcome.ret none ↔ y = none)
    ∧ ((helper_sym_sext_or_trunc y n t).1 = Outcome.ret none ↔ y = none)
    ∧ ((helper_sym_zext_or_trunc y n t).1 = Outcome.ret none ↔ y = none)
    ∧ ((helper_sym_extract_i32 y ofs len t).1 = Outcome.ret none ↔ y = none)
    ∧ ((helper_sym_extract_i64 y ofs len t).1 = Outcome.ret none ↔ y = none)
    ∧ ((helper_sym_sextract_i32 y ofs len t).1 = Outcome.ret none ↔ y = none)
    ∧ ((helper_sym_sextract_i64 y ofs len t).1 = Outcome.ret none ↔ y = none) := by
  cases y with
  | none => exact ⟨⟨fun _ => rfl, fun _ => rfl⟩, ⟨fun _ => rfl, fun _ => rfl⟩,
      ⟨fun _ => rfl, fun _ => rfl⟩, ⟨fun _ => rfl, fun _ => rfl⟩, ⟨fun _ => rfl, fun _ => rfl⟩,
      ⟨fun _ => rfl, fun _ => rfl⟩, ⟨fun _ => rfl, fun _ => rfl⟩, ⟨fun _ => rfl, fun _ => rfl⟩⟩
  | some e =>
    obtain ⟨h1, h2, h3, h4, h5, h6, h7, h8⟩ := unary_run e n ofs len t
    have key : ∀ run : Outcome (Option SymExpr) × List Call, returns_present run →
        (run.1 = Outcome.ret none ↔ some e = none) := by
      intro run hrun
      constructor
      · intro habs
        exact absurd habs (returns_present_ne_absent run hrun)
      · intro hn
        exact absurd hn (by simp)
    exact ⟨key _ h1, key _ h2, key _ h3, key _ h4, key _ h5, key _ h6, key _ h7, key _ h8⟩

/-- The deposit body as compiled returns a present handle when an operand is
present, whatever `ofs` and `len` are and whatever value an out-of-range shift
leaves; it returns `NULL` exactly when both expressions are `NULL`; and it is
the deposit body of the source when both shift counts are below the width. -/
theorem deposit_body_target_run (oob : Nat → Nat → Nat) (width arg1 arg2 ofs len : Nat)
    (x1 x2 : Option SymExpr) (t : List Call) :
    ((x1 ≠ none ∨ x2 ≠ none) →
      returns_present (deposit_body_target oob width arg1 x1 arg2 x2 ofs len t))
    ∧ ((deposit_body_target oob width arg1 x1 arg2 x2 ofs len t).1 = Outcome.ret none
        ↔ x1 = none ∧ x2 = none)
    ∧ (len < width → ofs < width →
        deposit_body width arg1 x1 arg2 x2 ofs len t
          = deposit_body_target oob width arg1 x1 arg2 x2 ofs len t) := by
  refine ⟨?_, ?_, ?_⟩
  · cases x1 <;> cases x2 <;>
    simp [returns_present, deposit_body_target,
      BINARY_HELPER_ENSURE_EXPRESSIONS, bind, Sym.bind, pure, Sym.pure, _sym_bits_helper,
      _sym_build_integer, _sym_build, _sym_build_and, _sym_build_or, _sym_build_shift_left, emit]
  · cases x1 <;> cases x2 <;>
    simp [deposit_body_target,
      BINARY_HELPER_ENSURE_EXPRESSIONS, bind, Sym.bind, pure, Sym.pure, _sym_bits_helper,
      _sym_build_integer, _sym_build, _sym_build_and, _sym_build_or, _sym_build_shift_left, emit]
  · intro hl ho
    cases x1 <;> cases x2 <;>
    simp [deposit_body, deposit_body_target, shift_left_unsigned, shift_left_target, hl, ho,
      BINARY_HELPER_ENSURE_EXPRESSIONS, bind, Sym.bind, pure, Sym.pure, _sym_bits_helper,
      _sym_build_integer, _sym_build, _sym_build_and, _sym_build_or, _sym_build_shift_left, emit]

/-- C19 (the sentinel is never produced from symbolic input): the implemented
unary helpers (`helper_sym_neg`, `helper_sym_not`, the two width adjustments,
the four extracts) return a present handle for a present expression; with at
least one present operand so do every primitive and derived binary helper, the
setcond entry points on a code that is one of the ten labels, and the deposit
entry points for every `ofs` and `len`: as written in C when both shift counts
are below the operand width, where the compiled helper is the helper of the
source, and as compiled for all `ofs` and `len`, whatever value a shift by a
count not below the width leaves in `mask`.  For all parameters, each of these
helpers returns `NULL` exactly when every expression passed is `NULL`. -/
theorem sentinel_only_when_all_absent (codes : TCGCond) (cond : Int)
    (hvalid : cond ∈ TCGCond.values codes)
    (g : BinaryHelper) (hg : g ∈ primitive_and_derived_operations)
    (oob32 oob64 : Nat → Nat → Nat)
    (arg1 arg2 result n ofs len : Nat) (e : SymExpr) (x1 x2 : Option SymExpr)
    (hx : x1 ≠ none ∨ x2 ≠ none) (t : List Call) :
    (returns_present (helper_sym_neg (some e) t)
      ∧ returns_present (helper_sym_not (some e) t)
      ∧ returns_present (helper_sym_sext_or_trunc (some e) n t)
      ∧ returns_present (helper_sym_zext_or_trunc (some e) n t)
      ∧ returns_present (helper_sym_extract_i32 (some e) ofs len t)
      ∧ returns_present (helper_sym_extract_i64 (some e) ofs len t)
      ∧ returns_present (helper_sym_sextract_i32 (some e) ofs len t)
      ∧ returns_present (helper_sym_sextract_i64 (some e) ofs len t))
    ∧ returns_present (g arg1 x1 arg2 x2 t)
    ∧ (returns_present (helper_sym_setcond_i32 codes arg1 x1 arg2 x2 cond result t)
      ∧ returns_present (helper_sym_setcond_i64 codes arg1 x1 arg2 x2 cond result t))
    ∧ (returns_present (helper_sym_deposit_i32_target oob32 arg1 x1 arg2 x2 ofs len t)
      ∧ returns_present (helper_sym_deposit_i64_target oob64 arg1 x1 arg2 x2 ofs len t))
    ∧ ((len < 32 → ofs < 32 →
          helper_sym_deposit_i32 arg1 x1 arg2 x2 ofs len t
            = helper_sym_deposit_i32_target oob32 arg1 x1 arg2 x2 ofs len t
          ∧ returns_present (helper_sym_deposit_i32 arg1 x1 arg2 x2 ofs len t))
      ∧ (len < 64 → ofs < 64 →
          helper_sym_deposit_i64 arg1 x1 arg2 x2 ofs len t
            = helper_sym_deposit_i64_target oob64 arg1 x1 arg2 x2 ofs len t
          ∧ returns_present (helper_sym_deposit_i64 arg1 x1 arg2 x2 ofs len t)))
    ∧ (∀ (codes2 : TCGCond) (cond2 : Int) (h : BinaryHelper),
        h ∈ binary_shadow_operations codes2 ofs len cond2 result →
        ∀ y1 y2 : Option SymExpr,
          ((h arg1 y1 arg2 y2 t).1 = Outcome.ret none ↔ y1 = none ∧ y2 = none))
    ∧ (∀ y1 y2 : Option SymExpr,
        ((helper_sym_deposit_i32_target oob32 arg1 y1 arg2 y2 ofs len t).1 = Outcome.ret none
          ↔ y1 = none ∧ y2 = none)
        ∧ ((helper_sym_deposit_i64_target oob64 arg1 y1 arg2 y2 ofs len t).1 = Outcome.ret none
          ↔ y1 = none ∧ y2 = none))
    ∧ (∀ y : Option SymExpr,
        ((helper_sym_neg y t).1 = Outcome.ret none ↔ y = none)
        ∧ ((helper_sym_not y t).1 = Outcome.ret none ↔ y = none)
        ∧ ((helper_sym_sext_or_trunc y n t).1 = Outcome.ret none ↔ y = none)
        ∧ ((helper_sym_zext_or_trunc y n t).1 = Outcome.ret none ↔ y = none)
        ∧ ((helper_sym_extract_i32 y ofs len t).1 = Outcome.ret none ↔ y = none)
        ∧ ((helper_sym_extract_i64 y ofs len t).1 = Outcome.ret none ↔ y = none)
        ∧ ((helper_sym_sextract_i32 y ofs len t).1 = Outcome.ret none ↔ y = none)
        ∧ ((helper_sym_sextract_i64 y ofs len t).1 = Outcome.ret none ↔ y = none)) := by
  refine ⟨unary_run e n ofs len t, (primitive_and_derived_run g hg arg1 arg2 x1 x2 t).1 hx,
    ⟨(setcond_internal_run codes cond arg1 arg2 result 32 x1 x2 t).1 hvalid hx,
     (setcond_internal_run codes cond arg1 arg2 result 64 x1 x2 t).1 hvalid hx⟩,
    ⟨(deposit_body_target_run oob32 32 arg1 arg2 ofs len x1 x2 t).1 hx,
     (deposit_body_target_run oob64 64 arg1 arg2 ofs len x1 x2 t).1 hx⟩,
    ⟨fun hl ho => ⟨(deposit_body_target_run oob32 32 arg1 arg2 ofs len x1 x2 t).2.2 hl ho,
        (deposit_body_run 32 arg1 arg2 ofs len x1 x2 t).1 hl ho hx⟩,
     fun hl ho => ⟨(deposit_body_target_run oob64 64 arg1 arg2 ofs len x1 x2 t).2.2 hl ho,
        (deposit_body_run 64 arg1 arg2 ofs len x1 x2 t).1 hl ho hx⟩⟩, ?_,
    fun y1 y2 => ⟨(deposit_body_target_run oob32 32 arg1 arg2 ofs len y1 y2 t).2.1,
      (deposit_body_target_run oob64 64 arg1 arg2 ofs len y1 y2 t).2.1⟩,
    fun y => unary_absent_iff y n ofs len t⟩
  intro codes2 cond2 h hh y1 y2
  rw [binary_shadow_operations_eq, List.mem_append] at hh
  rcases hh with hh | hh
  · exact (primitive_and_derived_run h hh arg1 arg2 y1 y2 t).2
  · simp only [List.mem_cons, List.mem_singleton, List.not_mem_nil, or_false] at hh
    rcases hh with rfl | rfl | rfl | rfl
    · exact (deposit_body_run 32 arg1 arg2 ofs len y1 y2 t).2
    · exact (deposit_body_run 64 arg1 arg2 ofs len y1 y2 t).2
    · exact (setcond_internal_run codes2 cond2 arg1 arg2 result 32 y1 y2 t).2
    · exact (setcond_internal_run codes2 cond2 arg1 arg2 result 64 y1 y2 t).2

/-- Witness for C19: the 32-bit deposit with `ofs = 32` and `len = 1`, both
operands present, on a target whose shift takes the count modulo the width,
returns a present handle, the OR node of the deposit formula; and the 32-bit
deposit of a 4-bit field at offset 4 with the second operand `NULL` returns a
present handle as written in C. -/
theorem sentinel_only_when_all_absent_witness :
    returns_present
      (helper_sym_deposit_i32_target (count_modulo_width 32) 1 (some (SymExpr.input 0 32)) 0
        (some (SymExpr.input 1 32)) 32 1 [])
    ∧ (helper_sym_deposit_i32_target (count_modulo_width 32) 1 (some (SymExpr.input 0 32)) 0
        (some (SymExpr.input 1 32)) 32 1 []).1
      = Outcome.ret (some (SymExpr.binary BinOp.or
          (SymExpr.binary BinOp.and (SymExpr.input 0 32) (SymExpr.integer (2 ^ 32 - 2) 32))
          (SymExpr.binary BinOp.shift_left
            (SymExpr.binary BinOp.and (SymExpr.input 1 32) (SymExpr.integer 1 32))
            (SymExpr.integer 32 32))))
    ∧ returns_present
      (helper_sym_deposit_i32 1 (some (SymExpr.input 0 32)) 0 none 4 4 []) :=
  ⟨(sentinel_only_when_all_absent example_codes 8 (by decide)
      helper_sym_add_i64 (by simp [primitive_and_derived_operations])
      (count_modulo_width 32) (count_modulo_width 64)
      1 0 1 4 32 1 (SymExpr.input 0 32) (some (SymExpr.input 0 32)) (some (SymExpr.input 1 32))
      (by simp) []).2.2.2.1.1,
   by decide,
   ((sentinel_only_when_all_absent example_codes 8 (by decide)
      helper_sym_add_i64 (by simp [primitive_and_derived_operations])
      (count_modulo_width 32) (count_modulo_width 64)
      1 0 1 4 4 4 (SymExpr.input 0 32) (some (SymExpr.input 0 32)) none
      (by simp) []).2.2.2.2.1.1 (by decide) (by decide)).2⟩

/-- C20 (width well-formedness of backend calls): when every present operand
expression has bit width `w`, every call of a two-operand builder made by a
primitive binary helper, a derived bitwise helper or a setcond entry point
receives two operands of bit width `w`; so does every such call made by
`helper_sym_deposit_i32` for `w = 32` and by `helper_sym_deposit_i64` for
`w = 64`, the calls on the mask, inverted-mask and offset constants
included. -/
theorem backend_calls_width_coherent (codes : TCGCond) (cond : Int) (result : Nat)
    (g : BinaryHelper)
    (hg : g ∈ primitive_and_derived_operations ++
        [fun arg1 arg1_expr arg2 arg2_expr =>
           helper_sym_setcond_i32 codes arg1 arg1_expr arg2 arg2_expr cond result,
         fun arg1 arg1_expr arg2 arg2_expr =>
           helper_sym_setcond_i64 codes arg1 arg1_expr arg2 arg2_expr cond result])
    (w arg1 arg2 ofs len : Nat) (x1 x2 y1 y2 z1 z2 : Option SymExpr)
    (hx1 : ∀ e, x1 = some e → bits e = w) (hx2 : ∀ e, x2 = some e → bits e = w)
    (hy1 : ∀ e, y1 = some e → bits e = 32) (hy2 : ∀ e, y2 = some e → bits e = 32)
    (hz1 : ∀ e, z1 = some e → bits e = 64) (hz2 : ∀ e, z2 = some e → bits e = 64) :
    (∀ c ∈ (g arg1 x1 arg2 x2 []).2, two_operand_widths w c)
    ∧ (∀ c ∈ (helper_sym_deposit_i32 arg1 y1 arg2 y2 ofs len []).2, two_operand_widths 32 c)
    ∧ (∀ c ∈ (helper_sym_deposit_i64 arg1 z1 arg2 z2 ofs len []).2,
        two_operand_widths 64 c) := by
  refine ⟨?_, deposit_body_widths 32 arg1 arg2 ofs len y1 y2 hy1 hy2,
    deposit_body_widths 64 arg1 arg2 ofs len z1 z2 hz1 hz2⟩
  rw [List.mem_append] at hg
  rcases hg with hg | hg
  · exact primitive_and_derived_widths g hg w arg1 arg2 x1 x2 hx1 hx2
  · simp only [List.mem_cons, List.mem_singleton, List.not_mem_nil, or_false] at hg
    rcases hg with rfl | rfl
    · exact setcond_internal_widths codes cond w arg1 arg2 result 32 x1 x2 hx1 hx2
    · exact setcond_internal_widths codes cond w arg1 arg2 result 64 x1 x2 hx1 hx2

/-- Witness for C20: `helper_sym_andc_i64` on a present 64-bit first operand
and an absent second operand calls the AND builder on two 64-bit operands. -/
theorem backend_calls_width_coherent_witness :
    two_operand_widths 64
      (Call.build (SymExpr.binary BinOp.and (SymExpr.input 0 64)
        (SymExpr.neg (SymExpr.integer 2 64)))) :=
  (backend_calls_width_coherent example_codes 8 1 helper_sym_andc_i64
    (by simp [primitive_and_derived_operations]) 64 1 2 4 4
    (some (SymExpr.input 0 64)) none (some (SymExpr.input 1 32)) none
    (some (SymExpr.input 2 64)) none
    (by intro e h; cases h; rfl) (by intro e h; cases h)
    (by intro e h; cases h; rfl) (by intro e h; cases h)
    (by intro e h; cases h; rfl) (by intro e h; cases h)).1 _ (by decide)

end SymQemu
